import Mathlib

/-!
Verification of the two text parsers of the MEDICAL-BILL-SCRUTINY-SYSTEM
repository: the CGHS rate-card state-machine parser
(`scripts/parse_cghs_rates.py`) and the hospital empanelment-list segmenter
(`scripts/parse_hospital_list.py`).

The Python sources are shallowly embedded: lines are lists of characters,
the small regular expressions used by the sources are embedded through a
total derivative-based matcher, Python `float` values are modelled as exact
rationals (all values relevant to the statements below are small integers,
which `float` represents exactly), and the one source of run-to-run
nondeterminism in the sources — iteration over an unordered Python `set`
(the e-mail set and the city gazetteer) — is made explicit as an order
parameter constrained to enumerate the set's elements.
-/

namespace MedBill

/-- A Python string, as its list of characters. -/
abbrev Str := List Char

/-- Python `\s` (ASCII range): space, tab, newline, carriage return,
vertical tab, form feed. -/
def pyWsChar (c : Char) : Bool :=
  c = ' ' || c = '\t' || c = '\n' || c = '\x0d' || c = '\x0b' || c = '\x0c'

/-- Python `str.strip()`: drop leading and trailing whitespace. -/
def pyStrip (s : Str) : Str :=
  ((s.dropWhile pyWsChar).reverse.dropWhile pyWsChar).reverse

/-- Python `str.lower()` (ASCII). -/
def pyLower (s : Str) : Str := s.map Char.toLower

/-- Python `str.upper()` (ASCII). -/
def pyUpper (s : Str) : Str := s.map Char.toUpper

/-- `s.replace(c, '')` for a single character: remove every occurrence. -/
def removeChar (c : Char) (s : Str) : Str := s.filter (fun d => d ≠ c)

/-- `s.replace(c, d)` for single characters. -/
def replaceChar (c d : Char) (s : Str) : Str :=
  s.map (fun x => if x = c then d else x)

/-- Does `s` start with the sequence `p`? -/
def startsWithSeq : Str → Str → Bool
  | _, [] => true
  | [], _ :: _ => false
  | c :: s, d :: p => c = d && startsWithSeq s p

/-- Does `s` contain `p` as a contiguous subsequence (Python `p in s`)? -/
def containsSeq : Str → Str → Bool
  | s, p =>
    match s with
    | [] => p.isEmpty
    | _ :: t => startsWithSeq s p || containsSeq t p

/-- Python `'\n'.split` style: split a character list at every separator. -/
def splitAtChar (sep : Char) : Str → List Str
  | [] => [[]]
  | c :: s =>
    if c = sep then [] :: splitAtChar sep s
    else
      match splitAtChar sep s with
      | [] => [[c]]
      | t :: ts => (c :: t) :: ts

/-- `sep.join(parts)` for Python strings. -/
def joinSep (sep : Str) : List Str → Str
  | [] => []
  | [p] => p
  | p :: ps => p ++ sep ++ joinSep sep ps

/-- Python `str.isupper()` (ASCII): at least one cased character, and no
cased character is lowercase. -/
def pyIsUpper (s : Str) : Bool :=
  s.any (fun c => c.isAlpha) && s.all (fun c => !c.isAlpha || c.isUpper)

/-- Python `str.title()` (ASCII): a letter that follows a non-letter is
uppercased, any other letter is lowercased. -/
def pyTitleGo : Bool → Str → Str
  | _, [] => []
  | prevAlpha, c :: s =>
    (if c.isAlpha then (if prevAlpha then c.toLower else c.toUpper) else c)
      :: pyTitleGo c.isAlpha s

/-- Python `str.title()`. -/
def pyTitle (s : Str) : Str := pyTitleGo false s

/-- Python `str.rstrip(',')`: drop trailing commas. -/
def rstripComma (s : Str) : Str :=
  (s.reverse.dropWhile (fun c => c = ',')).reverse

/-- Python word character `\w` (ASCII): letters, digits, underscore. -/
def pyWordChar (c : Char) : Bool := c.isAlpha || c.isDigit || c = '_'

/-! ## A total matcher for the regular expressions used by the sources

Character classes are kept first-order so that regular expressions have
decidable equality (used to keep derivatives small). -/

/-- Character classes appearing in the sources' patterns. -/
inductive CC where
  /-- a literal character -/
  | lit (c : Char)
  /-- a character matched case-insensitively (`re.IGNORECASE`) -/
  | ci (c : Char)
  /-- one of an explicit list of characters, case-insensitively -/
  | anyOf (cs : List Char)
  /-- Python `\s` -/
  | pws
  /-- Python `\d` -/
  | pdigit
  /-- Python `.` (anything but a newline) -/
  | dotc
  deriving DecidableEq

/-- Does the class accept the character? -/
def CC.test : CC → Char → Bool
  | .lit c, ch => ch = c
  | .ci c, ch => ch.toLower = c.toLower
  | .anyOf cs, ch => cs.any (fun c => ch.toLower = c.toLower)
  | .pws, ch => pyWsChar ch
  | .pdigit, ch => ch.isDigit
  | .dotc, ch => ch ≠ '\n'

/-- Regular expressions. -/
inductive RE where
  | eps
  | nul
  | cls (c : CC)
  | cat (a b : RE)
  | alt (a b : RE)
  | star (a : RE)
  deriving DecidableEq

/-- Does the expression accept the empty string? -/
def RE.nullable : RE → Bool
  | .eps => true
  | .nul => false
  | .cls _ => false
  | .cat a b => a.nullable && b.nullable
  | .alt a b => a.nullable || b.nullable
  | .star _ => true

/-- Concatenation with simplification. -/
def scat : RE → RE → RE
  | .nul, _ => .nul
  | .eps, b => b
  | a, b =>
    match b with
    | .nul => .nul
    | .eps => a
    | _ => .cat a b

/-- Alternation with simplification. -/
def salt : RE → RE → RE
  | .nul, b => b
  | a, b =>
    match b with
    | .nul => a
    | _ => if a = b then a else .alt a b

/-- Brzozowski derivative. -/
def RE.deriv : RE → Char → RE
  | .eps, _ => .nul
  | .nul, _ => .nul
  | .cls c, ch => if c.test ch then .eps else .nul
  | .cat a b, ch =>
    if a.nullable then salt (scat (a.deriv ch) b) (b.deriv ch)
    else scat (a.deriv ch) b
  | .alt a b, ch => salt (a.deriv ch) (b.deriv ch)
  | .star a, ch => scat (a.deriv ch) (.star a)

/-- Does `r` match the whole string (`re.match` on a pattern anchored with
`$`, i.e. `^pat$`)? -/
def rmatch (r : RE) : Str → Bool
  | [] => r.nullable
  | c :: s => rmatch (r.deriv c) s

/-- Does `r` match some initial segment of the string (`re.match`)? -/
def matchesStart (r : RE) : Str → Bool
  | [] => r.nullable
  | c :: s => r.nullable || matchesStart (r.deriv c) s

/-- Does `r` match somewhere in the string (`re.search`)? -/
def searchIn (r : RE) (s : Str) : Bool :=
  match s with
  | [] => r.nullable
  | _ :: t => matchesStart r s || searchIn r t

/-- Does `r` match some suffix of the string reaching its end
(`re.search` on a pattern anchored with `$`)? -/
def searchEnd (r : RE) (s : Str) : Bool :=
  match s with
  | [] => r.nullable
  | _ :: t => rmatch r s || searchEnd r t

/-- A literal character. -/
def rchr (c : Char) : RE := .cls (.lit c)

/-- A case-insensitive character. -/
def richr (c : Char) : RE := .cls (.ci c)

/-- A case-sensitive literal word. -/
def rstr (s : String) : RE := s.data.foldr (fun c r => RE.cat (rchr c) r) .eps

/-- A case-insensitive literal word. -/
def ristr (s : String) : RE := s.data.foldr (fun c r => RE.cat (richr c) r) .eps

/-- `\s` -/
def rws : RE := .cls .pws

/-- `\s*` -/
def rwsS : RE := .star rws

/-- `\s+` -/
def rwsP : RE := .cat rws rwsS

/-- `\d` -/
def rdig : RE := .cls .pdigit

/-- `\d+` -/
def rdigP : RE := .cat rdig (.star rdig)

/-- `.` -/
def rdot : RE := .cls .dotc

/-- `.*` -/
def rdotS : RE := .star rdot

/-- `pat?` -/
def ropt (r : RE) : RE := .alt r .eps

/-- `pat+` -/
def rplus (r : RE) : RE := .cat r (.star r)

/-- Concatenation of a pattern list. -/
def rcatL (l : List RE) : RE := l.foldr RE.cat .eps

/-! ## Python `float` literals

`float(text)` is modelled on the numeric-literal fragment
`[+-]? (digits [. digits*] | . digits+) ((e|E) [+-]? digits+)?` as an exact
rational.  The special spellings `inf`/`nan` and digit underscores that
Python also accepts never arise in the statements below, and every value
appearing in them is a small integer, which `float` represents exactly. -/

/-- Value of a digit string. -/
def digitsVal (ds : Str) : ℕ := ds.foldl (fun a c => a * 10 + (c.toNat - 48)) 0

/-- Exponent suffix `((e|E) [+-]? digits+)?`; `none` on trailing garbage. -/
def parseExpPart : Str → Option ℤ
  | [] => some 0
  | c :: rest =>
    if c = 'e' || c = 'E' then
      match rest with
      | '+' :: ds =>
        if !ds.isEmpty && ds.all Char.isDigit then some (digitsVal ds) else none
      | '-' :: ds =>
        if !ds.isEmpty && ds.all Char.isDigit then some (-(digitsVal ds : ℤ)) else none
      | ds =>
        if !ds.isEmpty && ds.all Char.isDigit then some (digitsVal ds) else none
    else none

/-- The exact rational `(mantNum / mantDen) * 10 ^ e`, built with `mkRat`
so that it evaluates by kernel reduction. -/
def decimalValue (mantNum mantDen : ℕ) (e : ℤ) : ℚ :=
  match e with
  | .ofNat k => mkRat (mantNum * 10 ^ k) mantDen
  | .negSucc k => mkRat mantNum (mantDen * 10 ^ (k + 1))

/-- Unsigned mantissa with optional exponent. -/
def pyFloatMag (s : Str) : Option ℚ :=
  let ip := s.takeWhile Char.isDigit
  let r1 := s.dropWhile Char.isDigit
  match r1 with
  | '.' :: r2 =>
    let fp := r2.takeWhile Char.isDigit
    let r3 := r2.dropWhile Char.isDigit
    if ip.isEmpty && fp.isEmpty then none
    else
      (parseExpPart r3).map (fun e =>
        decimalValue (digitsVal ip * 10 ^ fp.length + digitsVal fp) (10 ^ fp.length) e)
  | _ =>
    if ip.isEmpty then none
    else (parseExpPart r1).map (fun e => decimalValue (digitsVal ip) 1 e)

/-- Python `float(text)` on an already-stripped string; `none` models
`ValueError`. -/
def pyFloat (s : Str) : Option ℚ :=
  match s with
  | '+' :: t => pyFloatMag t
  | '-' :: t => (pyFloatMag t).map (fun q => -q)
  | t => pyFloatMag t

/-! ## Unit-suffix removal

`re.sub(r'(per\s+eye|both\s+eyes?|per\s+session|per\s+sitting|per\s+cycle)',
'', text, flags=re.IGNORECASE)`: scan left to right, at each position try
the alternatives in the pattern's order (quantifiers greedy, which here
means a maximal whitespace run and taking the optional `s`), remove each
match, and continue after it. -/

/-- Length matched at the head of `s` by `w1\s+w2` (case-insensitively),
optionally extended by a trailing `s` when `opts` is set (greedy `s?`). -/
def wordGapWordLen (w1 w2 : String) (opts : Bool) (s : Str) : Option ℕ :=
  if startsWithSeq (pyLower s) (pyLower w1.data) then
    let r := s.drop w1.length
    let k := (r.takeWhile pyWsChar).length
    if k ≥ 1 && startsWithSeq (pyLower (r.drop k)) (pyLower w2.data) then
      let base := w1.length + k + w2.length
      if opts && (match s.drop base with
                  | c :: _ => c.toLower = 's'
                  | [] => false)
      then some (base + 1) else some base
    else none
  else none

/-- First alternative of the unit-suffix pattern matching at the head. -/
def rateSuffixLen (s : Str) : Option ℕ :=
  match wordGapWordLen "per" "eye" false s with
  | some k => some k
  | none =>
  match wordGapWordLen "both" "eye" true s with
  | some k => some k
  | none =>
  match wordGapWordLen "per" "session" false s with
  | some k => some k
  | none =>
  match wordGapWordLen "per" "sitting" false s with
  | some k => some k
  | none => wordGapWordLen "per" "cycle" false s

/-- Worker for `subRateSuffixes`.  Every step consumes at least one
character, so the explicit counter (initialized to the string length, and
only there to make the recursion structural) never runs out. -/
def subRateSuffixesGo : ℕ → Str → Str
  | _, [] => []
  | 0, _ :: _ => []
  | fuel + 1, c :: t =>
    match rateSuffixLen (c :: t) with
    | some k => subRateSuffixesGo fuel (t.drop (k - 1))
    | none => c :: subRateSuffixesGo fuel t

/-- The substitution itself: every occurrence is replaced by the empty
string. -/
def subRateSuffixes (s : Str) : Str := subRateSuffixesGo s.length s

/-! ## Rate-card utility classifiers (`parse_cghs_rates.py`) -/

/-- `parse_number(text)`: strip, drop thousands separators, drop unit
suffixes, strip again, then parse; `None` on failure. -/
def parse_number (text : Str) : Option ℚ :=
  let cleaned := removeChar ',' (pyStrip text)
  let cleaned := pyStrip (subRateSuffixes cleaned)
  if cleaned.isEmpty then none else pyFloat cleaned

/-- `is_pure_number(text)`: same cleaning, `True` iff the float parse
succeeds. -/
def is_pure_number (text : Str) : Bool :=
  let cleaned := removeChar ',' (pyStrip text)
  let cleaned := pyStrip (subRateSuffixes cleaned)
  if cleaned.isEmpty then false else (pyFloat cleaned).isSome

/-- The boilerplate patterns of `is_skip_line`, in source order; each is
matched against the whole line (`re.match` with a `$`- or `.*$`-terminated
pattern, `re.IGNORECASE`). -/
def skipPats : List RE := [
  rwsS,
  rcatL [rwsS, ristr "NonNABH/NonNABL", rwsP, ristr "Rate", ropt (richr 's'), rwsS],
  rcatL [rwsS, ristr "NABH/NABL", rwsS],
  rcatL [rwsS, ristr "rate", ropt (richr 's'), rwsP, ristr "in", rwsP, ristr "Rupee", rwsS],
  rcatL [rwsS, ristr "Rate", ropt (richr 's'), rwsS],
  rcatL [rwsS, ristr "CGHS", rwsP, ristr "TREATMENT", rwsS],
  rcatL [rwsS, ristr "CGHS", rwsP, ristr "package", rwsP, ristr "rate", rdotS],
  rcatL [rwsS, ristr "CITY", rwsS, rchr ':', rdotS],
  rcatL [rwsS, ristr "Sr", ropt (rchr '.'), rwsS],
  rcatL [rwsS, ristr "No", ropt (rchr '.'), rwsS],
  rcatL [rwsS, ristr "PROCEDURE/INVESTIGATION", rwsP, ristr "LIST", rwsS],
  rcatL [rwsS, rchr '(', ristr "DELHI/NCR", rchr ')', rwsS],
  rcatL [rwsS, ristr "INVESTIGATION", ropt (richr 's'), rwsP, ristr "AND", rwsP,
         ristr "PROCEDURE", ropt (richr 's'), rwsS]]

/-- `is_skip_line(line)`: first matching pattern wins. -/
def is_skip_line (line : Str) : Bool := skipPats.any (fun p => rmatch p line)

/-- `TREATMENT\s+PROCEDURE`, shared head of most category patterns. -/
def rTP : RE := rcatL [ristr "TREATMENT", rwsP, ristr "PROCEDURE"]

/-- `[/\s]*` -/
def rSlashWsS : RE := .star (.alt (rchr '/') rws)

/-- `\s*[/\s]*`, the glue of the `TREATMENT PROCEDURE` patterns. -/
def rTPGlue : RE := .cat rwsS rSlashWsS

/-- `[&AND]*` (case-insensitive). -/
def rAmpAndS : RE := .star (.cls (.anyOf ['&', 'a', 'n', 'd']))

/-- `TREATMENT\s+PROCEDURE\s*[/\s]*` followed by a tail pattern. -/
def rTPpat (tail : List RE) : RE := rcatL ([rTP, rTPGlue] ++ tail)

/-- `LABORATORY\s+MEDICINE.*` followed by a tail pattern. -/
def rLabPat (tail : List RE) : RE :=
  rcatL ([ristr "LABORATORY", rwsP, ristr "MEDICINE", rdotS] ++ tail)

/-- `NAME\s+OF\s+INVESTIGATION.*` followed by a tail pattern. -/
def rNamePat (tail : List RE) : RE :=
  rcatL ([ristr "NAME", rwsP, ristr "OF", rwsP, ristr "INVESTIGATION", rdotS] ++ tail)

/-- The `category_map` of `detect_category`, in source order.  Each entry
pairs the pattern's match test (`re.search`, except the two `^`-anchored
final patterns) with the canonical category name. -/
def category_map : List ((Str → Bool) × Str) := [
  (searchIn (rcatL [rTP, rwsP, ristr "SKIN"]), "SKIN".data),
  (searchIn (rTPpat [ristr "OP", rplus (.cls (.anyOf ['t', 'h'])), ristr "ALMOLOGY"]),
    "OPHTHALMOLOGY".data),
  (searchIn (rTPpat [ristr "DENTAL"]), "DENTAL".data),
  (searchIn (rTPpat [ristr "ENT"]), "ENT".data),
  (searchIn (rTPpat [ristr "HEAD", rwsS, rAmpAndS, rwsS, ristr "NECK"]),
    "HEAD & NECK SURGERY".data),
  (searchIn (rTPpat [ristr "BREAST"]), "BREAST SURGERY".data),
  (searchIn (rTPpat [ristr "GENERAL", rwsP, ristr "SURGERY"]), "GENERAL SURGERY".data),
  (searchIn (rTPpat [ristr "OESOPHAGUS"]), "OESOPHAGUS".data),
  (searchIn (rTPpat [ristr "STOMACH"]), "STOMACH".data),
  (searchIn (rTPpat [ristr "LIVER"]), "LIVER".data),
  (searchIn (rTPpat [ristr "GALL", rwsS, ristr "BLADDER"]), "GALL BLADDER".data),
  (searchIn (rTPpat [ristr "PANCREAS"]), "PANCREAS".data),
  (searchIn (rTPpat [ristr "SMALL", rwsP, ristr "BOWEL"]), "SMALL BOWEL".data),
  (searchIn (rTPpat [ristr "LARGE", rwsP, ristr "BOWEL"]), "LARGE BOWEL / COLON".data),
  (searchIn (rTPpat [ristr "APPENDIX"]), "APPENDIX".data),
  (searchIn (rTPpat [ristr "RECTUM"]), "RECTUM".data),
  (searchIn (rTPpat [ristr "HERNIA"]), "HERNIA".data),
  (searchIn (rTPpat [ristr "SPLEEN"]), "SPLEEN".data),
  (searchIn (rTPpat [ristr "UROLOGY"]), "UROLOGY".data),
  (searchIn (rTPpat [ristr "KIDNEY"]), "KIDNEY".data),
  (searchIn (rTPpat [ristr "VASCULAR"]), "VASCULAR SURGERY".data),
  (searchIn (rTPpat [ristr "CARDIOVASCULAR"]), "CARDIOVASCULAR & CARDIAC SURGERY".data),
  (searchIn (rTPpat [ristr "CARDIAC", rwsP, ristr "SURGERY"]),
    "CARDIOVASCULAR & CARDIAC SURGERY".data),
  (searchIn (rTPpat [ristr "OBSTETRICS"]), "OBSTETRICS & GYNAECOLOGY".data),
  (searchIn (rTPpat [ristr "GYNAECOLOGY"]), "OBSTETRICS & GYNAECOLOGY".data),
  (searchIn (rTPpat [ristr "ORTHO", .star (.cls (.anyOf ['p', 'a'])), ristr "EDIC"]),
    "ORTHOPAEDICS".data),
  (searchIn (rTPpat [ristr "NEURO", rwsS, ristr "SURGERY"]), "NEUROSURGERY".data),
  (searchIn (rTPpat [ristr "PAEDIATRIC"]), "PAEDIATRIC SURGERY".data),
  (searchIn (rTPpat [ristr "PLASTIC"]), "PLASTIC SURGERY".data),
  (searchIn (rTPpat [ristr "BURNS"]), "BURNS".data),
  (searchIn (rTPpat [ristr "THORACIC"]), "THORACIC SURGERY".data),
  (searchIn (rTPpat [ristr "ENDOCRINE"]), "ENDOCRINE SURGERY".data),
  (searchIn (rTPpat [ristr "PULMONOLOGY"]), "PULMONOLOGY".data),
  (searchIn (rTPpat [ristr "ONCOLOGY"]), "ONCOLOGY".data),
  (searchIn (rTPpat [ristr "ICU"]), "ICU PROCEDURES".data),
  (searchIn (rcatL [ristr "LIST", rwsP, ristr "OF", rwsP,
      .alt (ristr "PROCEDURES") (ristr "INVESTIGATION"), rdotS, ristr "GASTROENTEROLOGY"]),
    "GASTROENTEROLOGY".data),
  (searchIn (rcatL [ristr "LIST", rwsP, ristr "OF", rwsP,
      .alt (ristr "PROCEDURES") (ristr "INVESTIGATION"), rdotS, ristr "ENDOSCOP"]),
    "GASTROENTEROLOGY / ENDOSCOPY".data),
  (searchIn (rLabPat [ristr "BIO", rdotS, ristr "CHEMISTRY"]), "LABORATORY - BIOCHEMISTRY".data),
  (searchIn (rLabPat [ristr "CLINICAL", rdotS, ristr "PATHOLOGY"]),
    "LABORATORY - CLINICAL PATHOLOGY".data),
  (searchIn (rLabPat [ristr "HAEMATOLOGY"]), "LABORATORY - HAEMATOLOGY".data),
  (searchIn (rLabPat [ristr "BLOOD", rwsP, ristr "BANK"]), "LABORATORY - BLOOD BANK".data),
  (searchIn (rLabPat [ristr "MICROBIOLOGY"]), "LABORATORY - MICROBIOLOGY".data),
  (searchIn (rLabPat [ristr "CYTOLOGY"]), "LABORATORY - CYTOLOGY".data),
  (searchIn (rLabPat [ristr "TUMO", ropt (richr 'u'), ristr "R", rwsP, ristr "MARKER"]),
    "LABORATORY - TUMOUR MARKERS".data),
  (searchIn (rcatL [ristr "NUCLEAR", rwsP, ristr "MEDICINE"]), "NUCLEAR MEDICINE".data),
  (searchIn (ristr "CHEMOTHERAPY"), "CHEMOTHERAPY".data),
  (searchIn (ristr "RADIOTHERAPY"), "RADIOTHERAPY".data),
  (searchIn (rNamePat [ristr "RADIOLOGY"]), "RADIOLOGY".data),
  (searchIn (rNamePat [ristr "CARDIOLOGY"]), "CARDIOLOGY INVESTIGATIONS".data),
  (searchIn (rNamePat [ristr "PET", rwsP, ristr "SCAN"]), "PET SCAN".data),
  (searchIn (rNamePat [ristr "PULMONARY"]), "PULMONARY INVESTIGATIONS".data),
  (searchIn (rNamePat [ristr "NEUROLOG"]), "NEUROLOGY INVESTIGATIONS".data),
  (searchIn (rcatL [ristr "CARDIAC", rwsP, ristr "SURGERY", rwsS, rAmpAndS, rwsS,
      ristr "INVESTIGATIONS"]), "CARDIOVASCULAR & CARDIAC SURGERY".data),
  (searchIn (rcatL [rchr '(', ristr "SPECIAL", rwsP, ristr "CARE", rwsP, ristr "CASES",
      rchr ')']), "SPECIAL CARE".data),
  (searchIn (rcatL [ristr "SPECIAL", rwsP, ristr "CARE", rwsP, ristr "CASES"]),
    "SPECIAL CARE".data),
  (searchIn (rcatL [ristr "NEW", rwsP, ristr "PROCE", rplus (.cls (.anyOf ['d', 'u'])),
      ristr "RE", ropt (richr 's'), rwsP, ristr "ADDED"]), "NEW PROCEDURES (2023)".data),
  (rmatch (rcatL [ristr "NEUROLOGICAL", rwsS]), "NEUROLOGY INVESTIGATIONS".data),
  (matchesStart (rcatL [ristr "NEURO", rwsS, ristr "LOGICAL", rwsP, ristr "INVESTIGATIONS"]),
    "NEUROLOGY INVESTIGATIONS".data)]

/-- Worker for `removeSeq`, with a structural counter as in
`subRateSuffixesGo`. -/
def removeSeqGo (p : Str) : ℕ → Str → Str
  | _, [] => []
  | 0, _ :: _ => []
  | fuel + 1, c :: t =>
    if !p.isEmpty && startsWithSeq (c :: t) p then removeSeqGo p fuel (t.drop (p.length - 1))
    else c :: removeSeqGo p fuel t

/-- `s.replace(p, '')` for a non-empty pattern: remove every left-to-right
non-overlapping occurrence. -/
def removeSeq (p : Str) (s : Str) : Str := removeSeqGo p s.length s

/-- `detect_category(line)`: first matching pattern of `category_map`, then
the all-caps catch-all for long section headers containing the marker
`TREATMENT PROCEDURE`. -/
def detect_category (line : Str) : Option Str :=
  let cleaned := pyStrip line
  if cleaned.isEmpty then none
  else
    match category_map.find? (fun pc => pc.1 cleaned) with
    | some pc => some pc.2
    | none =>
      if pyIsUpper cleaned && decide (cleaned.length > 15) &&
         (match cleaned with
          | c :: _ => !c.isDigit
          | [] => false) &&
         containsSeq cleaned "TREATMENT PROCEDURE".data then
        some (pyStrip (removeSeq "TREATMENT PROCEDURE".data cleaned))
      else none

/-! ## Note extraction -/

/-- Match `see\s+code\s+(\d+)` at the head of an (already lowercased)
string; returns the digit group. -/
def seeCodeAt (s : Str) : Option Str :=
  if startsWithSeq s "see".data then
    let r := s.drop 3
    let k := (r.takeWhile pyWsChar).length
    if k ≥ 1 && startsWithSeq (r.drop k) "code".data then
      let r2 := (r.drop k).drop 4
      let k2 := (r2.takeWhile pyWsChar).length
      let ds := (r2.drop k2).takeWhile Char.isDigit
      if k2 ≥ 1 && !ds.isEmpty then some ds else none
    else none
  else none

/-- Leftmost match of `see\s+code\s+(\d+)` (`re.search` on lowercased
text). -/
def seeCodeSearch : Str → Option Str
  | [] => none
  | c :: t =>
    match seeCodeAt (c :: t) with
    | some d => some d
    | none => seeCodeSearch t

/-- Lexicographic (code-point) strict order on strings, as Python `<`. -/
def lexLt : Str → Str → Bool
  | [], [] => false
  | [], _ :: _ => true
  | _ :: _, [] => false
  | a :: s, b :: t => if a = b then lexLt s t else decide (a < b)

/-- Insert into a lexicographically sorted list. -/
def insertSorted (x : Str) : List Str → List Str
  | [] => [x]
  | y :: t => if lexLt x y || x = y then x :: y :: t else y :: insertSorted x t

/-- Python `sorted` on a list of strings. -/
def sortStrs (l : List Str) : List Str := l.foldr insertSorted []

/-- `extract_notes(text)`: fixed annotation vocabulary plus the
`see code N` reference, deduplicated (the tags are pairwise distinct) and
sorted, joined with `'; '`. -/
def extract_notes (text : Str) : Str :=
  let tl := pyLower text
  let notes : List Str :=
    (if containsSeq tl "per eye".data then ["per eye".data] else []) ++
    (if containsSeq tl "both eye".data then ["both eyes".data] else []) ++
    (if containsSeq tl "per session".data then ["per session".data] else []) ++
    (if containsSeq tl "per sitting".data then ["per sitting".data] else []) ++
    (if containsSeq tl "per cycle".data then ["per cycle".data] else []) ++
    (if containsSeq tl "including gst".data then ["including GST".data] else []) ++
    (match seeCodeSearch tl with
     | some d => ["see code ".data ++ d]
     | none => [])
  joinSep "; ".data (sortStrs notes)

/-! ## The rate-card state machine (`parse_cghs_rates`)

The source declares four state constants but never assigns `STATE_RATE1`;
the reachable states are `SEEKING`, `PROC_NAME` (the spec's
`COLLECTING_NAME`) and `RATE2` (the spec's `AWAIT_SECOND_RATE`). -/

/-- An emitted rate-card record. -/
structure RateEntry where
  sr_no : ℕ
  category : Str
  procedure_name : Str
  non_nabh_rate : Option ℚ
  nabh_rate : Option ℚ
  notes : Str
  deriving DecidableEq, Repr

/-- Parser state label. -/
inductive Phase where
  | seeking
  | procName
  | rate2
  deriving DecidableEq, Repr

/-- The mutable accumulation variables of `parse_cghs_rates`, plus the
output list. -/
structure RState where
  phase : Phase
  category : Str
  sr : Option ℕ
  procParts : List Str
  nonNabh : Option ℚ
  nabh : Option ℚ
  rateTexts : List Str
  expectedNext : Option ℕ
  entries : List RateEntry
  deriving DecidableEq, Repr

/-- Initial parser state (`current_category = 'GENERAL'`,
`expected_next_sr = 1`). -/
def initRState : RState :=
  ⟨.seeking, "GENERAL".data, none, [], none, none, [], some 1, []⟩

/-- Worker for `normSpaces`: the flag records whether the previous
character was whitespace (i.e. the current run already emitted its
space). -/
def normSpacesGo : Bool → Str → Str
  | _, [] => []
  | inWs, c :: t =>
    if pyWsChar c then
      if inWs then normSpacesGo true t else ' ' :: normSpacesGo true t
    else c :: normSpacesGo false t

/-- `re.sub(r'\s+', ' ', s)`: collapse every whitespace run to one
space. -/
def normSpaces (s : Str) : Str := normSpacesGo false s

/-- The nested `flush_entry`: emit the accumulated record when `sr_no` is
set and the name-fragment list is non-empty, then reset the accumulation
fields.  An absent NABH rate defaults to the non-NABH rate. -/
def flushEntry (s : RState) : RState :=
  let s1 :=
    if s.sr.isSome && !s.procParts.isEmpty then
      let procName := normSpaces (pyStrip (joinSep " ".data s.procParts))
      let allText := procName ++ " ".data ++ joinSep " ".data s.rateTexts
      { s with entries := s.entries ++ [⟨s.sr.getD 0, s.category, procName, s.nonNabh,
          (match s.nabh with
           | some v => some v
           | none => s.nonNabh), extract_notes allText⟩] }
    else s
  { s1 with sr := none, procParts := [], nonNabh := none, nabh := none, rateTexts := [] }

/-- `re.match(r'^\d{1,4}$', s)`: one to four digits and nothing else. -/
def isBareSr (s : Str) : Bool :=
  decide (1 ≤ s.length) && decide (s.length ≤ 4) && s.all Char.isDigit

/-- `re.match(r'^\d[\d,]*$', s)`: digits and thousands separators only. -/
def isDigitComma (s : Str) : Bool :=
  match s with
  | [] => false
  | c :: t => c.isDigit && t.all (fun d => d.isDigit || d = ',')

/-- `re.match(r'^(\d{1,4})\s+(.+)', s)`: a leading run of one to four
digits, mandatory whitespace, then the rest.  The digit quantifier cannot
backtrack into the run (shorter choices leave a digit, not whitespace,
next), and a final all-whitespace tail makes the greedy `\s+` yield its
last character to `(.+)`. -/
def inlineMatch (s : Str) : Option (ℕ × Str) :=
  let ds := s.takeWhile Char.isDigit
  let rest := s.dropWhile Char.isDigit
  if decide (1 ≤ ds.length) && decide (ds.length ≤ 4) then
    let k := (rest.takeWhile pyWsChar).length
    if k ≥ 1 then
      match rest.drop k with
      | [] => if k ≥ 2 then some (digitsVal ds, [rest.getD (k - 1) ' ']) else none
      | tail => some (digitsVal ds, tail)
    else none
  else none

/-- `re.search(r'see\s+code\s+\d+', s, re.IGNORECASE)` as used in the
`RATE2` state. -/
def seeCodeTest (s : Str) : Bool :=
  searchIn (rcatL [ristr "see", rwsP, ristr "code", rwsP, rdigP]) s

/-- One iteration of the main loop of `parse_cghs_rates` on a raw line. -/
def stepLine (s : RState) (line : Str) : RState :=
  let stripped := pyStrip line
  if is_skip_line stripped then s
  else
    match detect_category stripped with
    | some cat =>
      let s' := if s.phase = .procName || s.phase = .rate2 then flushEntry s else s
      { s' with category := cat, phase := .seeking, expectedNext := none }
    | none =>
      match s.phase with
      | .seeking =>
        if isBareSr stripped then
          { s with sr := some (digitsVal stripped), procParts := [], phase := .procName,
                   expectedNext := some (digitsVal stripped + 1) }
        else
          match inlineMatch stripped with
          | some nt =>
            { s with sr := some nt.1, procParts := [pyStrip nt.2], phase := .procName,
                     expectedNext := some (nt.1 + 1) }
          | none => s
      | .procName =>
        if isDigitComma (removeChar ' ' stripped) && (parse_number stripped).isSome then
          { s with nonNabh := parse_number stripped, rateTexts := s.rateTexts ++ [stripped],
                   phase := .rate2 }
        else if is_pure_number stripped && (parse_number stripped).isSome &&
                !s.procParts.isEmpty then
          { s with nonNabh := parse_number stripped, rateTexts := s.rateTexts ++ [stripped],
                   phase := .rate2 }
        else
          match inlineMatch stripped with
          | some nt =>
            if !is_pure_number (pyStrip nt.2) then
              let s' := flushEntry s
              { s' with sr := some nt.1, procParts := [pyStrip nt.2],
                        expectedNext := some (nt.1 + 1), phase := .procName }
            else { s with procParts := s.procParts ++ [stripped] }
          | none => { s with procParts := s.procParts ++ [stripped] }
      | .rate2 =>
        if is_pure_number stripped && (parse_number stripped).isSome then
          let s' := { s with nabh := parse_number stripped,
                             rateTexts := s.rateTexts ++ [stripped] }
          { (flushEntry s') with phase := .seeking }
        else if seeCodeTest stripped then
          let s' := { s with rateTexts := s.rateTexts ++ [stripped] }
          { (flushEntry s') with phase := .seeking }
        else if isBareSr stripped &&
                (match s.expectedNext with
                 | some e => decide (e ≠ 0) &&
                     decide (((digitsVal stripped : ℤ) - (e : ℤ)).natAbs ≤ 2)
                 | none => false) then
          let s' := flushEntry s
          { s' with sr := some (digitsVal stripped), procParts := [],
                    expectedNext := some (digitsVal stripped + 1), phase := .procName }
        else
          match inlineMatch stripped with
          | some nt =>
            if !is_pure_number nt.2 then
              let s' := flushEntry s
              { s' with sr := some nt.1, procParts := [pyStrip nt.2],
                        expectedNext := some (nt.1 + 1), phase := .procName }
            else
              match detect_category stripped with
              | some cat =>
                let s' := flushEntry s
                { s' with category := cat, phase := .seeking }
              | none =>
                let s' := { s with rateTexts := s.rateTexts ++ [stripped] }
                { (flushEntry s') with phase := .seeking }
          | none =>
            match detect_category stripped with
            | some cat =>
              let s' := flushEntry s
              { s' with category := cat, phase := .seeking }
            | none =>
              let s' := { s with rateTexts := s.rateTexts ++ [stripped] }
              { (flushEntry s') with phase := .seeking }

/-- `parse_cghs_rates` on an already-split line list: fold the step over
the lines, then flush a still-open record at end of input. -/
def parse_cghs_rates_lines (lines : List Str) : List RateEntry :=
  let s := lines.foldl stepLine initRState
  if s.phase ≠ .seeking then (flushEntry s).entries else s.entries

/-- `parse_cghs_rates` on the raw text: normalize form feeds to newlines,
split into lines, parse. -/
def parse_cghs_rates (raw : Str) : List RateEntry :=
  parse_cghs_rates_lines (splitAtChar '\n' (replaceChar '\x0c' '\n' raw))

/-! ## The hospital empanelment-list segmenter (`parse_hospital_list.py`)

Two of its lookups iterate over unordered Python `set`s whose iteration
order is unspecified (hash randomization): the final `'; '.join(set(...))`
over collected e-mail addresses, and the prefix-match loop over
`KNOWN_CITIES`.  Both orders are passed in explicitly; a run of the Python
program corresponds to some pair of orders satisfying `ValidCityOrder` /
`ValidEmailOrder`. -/

/-- The `KNOWN_CITIES` gazetteer literal, in source order. -/
def knownCityNames : List String :=
  ["ahmedabad", "allahabad", "prayagraj", "ajmer", "ambikapur", "angamaly", "asansol",
   "bangalore", "bengaluru",
   "barasat", "bargarh", "bhilai", "bhopal", "bhubaneshwar", "bhubaneswar", "bilaspur",
   "bokaro", "burdwan",
   "bardhaman", "calicut", "kozhikode", "chandigarh", "chandrapur", "chennai",
   "coimbatore", "cuttack",
   "dankuni", "dehradun", "delhi", "dhanbad", "dhule", "durg", "durgapur", "dibrugarh",
   "ernakulam", "faridabad",
   "ghaziabad", "goa", "gorakhpur", "gurgaon", "gurugram", "guwahati", "hyderabad",
   "indore", "jabalpur",
   "jaipur", "jamshedpur", "jodhpur", "kanpur", "kochi", "kolkata", "korba", "lucknow",
   "ludhiana", "madurai",
   "mangalore", "mohali", "mumbai", "muzaffarpur", "mysore", "mysuru", "nagpur",
   "nashik", "noida", "panaji",
   "patna", "puducherry", "pune", "raigarh", "raipur", "rajkot", "ranchi", "rourkela",
   "sambalpur",
   "secunderabad", "siliguri", "surat", "thane", "thiruvananthapuram",
   "tiruchirappalli", "trichy",
   "trivandrum", "udaipur", "vadodara", "varanasi", "vijayawada", "visakhapatnam",
   "vizag", "vellore",
   "hazaribagh", "sindri", "ramgarh", "sasaram", "howrah", "kalyani", "medinipur",
   "purulia", "bankura",
   "balasore", "berhampur", "jharsuguda", "sundargarh", "jajpur", "angul", "dhenkanal"]

/-- `KNOWN_CITIES` as character lists. -/
def KNOWN_CITIES : List Str := knownCityNames.map String.data

/-- The multi-word city list of `find_city`. -/
def multiWordCities : List Str :=
  ["new delhi".data, "navi mumbai".data, "greater noida".data]

/-- `find_city(text)`: direct gazetteer membership, then multi-word
containment, then the prefix loop — the last iterating the gazetteer set in
the unspecified order `co`. -/
def find_city (co : List Str) (text : Str) : Str :=
  let tl := pyStrip (pyLower text)
  if KNOWN_CITIES.contains tl then pyTitle tl
  else
    match multiWordCities.find? (fun mc => containsSeq tl mc) with
    | some mc => pyTitle mc
    | none =>
      match co.find? (fun city => startsWithSeq tl city) with
      | some city => pyTitle city
      | none => []

/-- An iteration order for the gazetteer set is an enumeration of its
elements. -/
def ValidCityOrder (co : List Str) : Prop := co.Perm KNOWN_CITIES

/-- An iteration order for `set(email_parts)` enumerates the distinct
collected addresses. -/
def ValidEmailOrder (o : List Str → List Str) : Prop := ∀ l : List Str, (o l).Perm l.dedup

/-- Match the words of `parts`, separated by `\s*`, at the head of `s`
(case-insensitively); returns the consumed length. -/
def matchPartsCI : List Str → Str → Option ℕ
  | [], _ => some 0
  | [w], s => if startsWithSeq (pyLower s) (pyLower w) then some w.length else none
  | w :: w2 :: ws, s =>
    if startsWithSeq (pyLower s) (pyLower w) then
      let r := s.drop w.length
      let k := (r.takeWhile pyWsChar).length
      (matchPartsCI (w2 :: ws) (r.drop k)).map (fun n => w.length + k + n)
    else none

/-- `re.search` of `\bw1\s*w2...\b` (case-insensitive): some position has a
non-word character (or the string start) on its left, the words match, and
a non-word character (or the string end) follows. -/
def wordBoundarySearchGo (parts : List Str) : Option Char → Str → Bool
  | _, [] => false
  | prev, c :: t =>
    ((match prev with
      | none => true
      | some p => !pyWordChar p) &&
     (match matchPartsCI parts (c :: t) with
      | some n =>
        (match (c :: t).drop n with
         | [] => true
         | d :: _ => !pyWordChar d)
      | none => false)) ||
    wordBoundarySearchGo parts (some c) t

/-- Word-boundary search starting at the string head. -/
def searchWordCI (parts : List Str) (s : Str) : Bool := wordBoundarySearchGo parts none s

/-- The indicator patterns of `is_hospital_name_like`, each a
`\b...\b`-delimited word or `\s*`-separated word pair. -/
def hospitalIndicators : List (List Str) := [
  ["hospital".data], ["clinic".data], ["medical".data], ["institut".data],
  ["centre".data], ["center".data], ["nursing".data], ["diagnostic".data],
  ["healthcare".data], ["health".data, "care".data], ["health".data, "world".data],
  ["specialit".data], ["mission".data], ["foundation".data], ["trust".data],
  ["apollo".data], ["fortis".data], ["narayana".data], ["max".data],
  ["sagar".data], ["aster".data], ["care".data], ["aiims".data],
  ["netralaya".data], ["nethralaya".data], ["eye".data],
  ["Ltd".data], ["Pvt".data], ["Private".data], ["Limited".data],
  ["Research".data], ["Memorial".data], ["Charitable".data]]

/-- `is_hospital_name_like(text)`: an indicator keyword, or long all-caps
text. -/
def is_hospital_name_like (text : Str) : Bool :=
  let t := pyStrip text
  if t.isEmpty then false
  else if hospitalIndicators.any (fun parts => searchWordCI parts t) then true
  else pyIsUpper t && decide (t.length > 15)

/-- Length matched at the head by the date pattern
`\d{2}\.\d{2}\.\d{2,4}` (trailing digit group greedy). -/
def dateMatchLen (s : Str) : Option ℕ :=
  match s with
  | a :: b :: '.' :: c :: d :: '.' :: rest =>
    if a.isDigit && b.isDigit && c.isDigit && d.isDigit then
      let j := min (rest.takeWhile Char.isDigit).length 4
      if j ≥ 2 then some (6 + j) else none
    else none
  | _ => none

/-- Worker for `findDates`, with a structural counter as in
`subRateSuffixesGo`. -/
def findDatesGo : ℕ → Str → List Str
  | _, [] => []
  | 0, _ :: _ => []
  | fuel + 1, c :: t =>
    match dateMatchLen (c :: t) with
    | some n => (c :: t).take n :: findDatesGo fuel (t.drop (n - 1))
    | none => findDatesGo fuel t

/-- `re.findall` of the date pattern. -/
def findDates (s : Str) : List Str := findDatesGo s.length s

/-- Worker for `subDates`, with a structural counter as in
`subRateSuffixesGo`. -/
def subDatesGo : ℕ → Str → Str
  | _, [] => []
  | 0, _ :: _ => []
  | fuel + 1, c :: t =>
    match dateMatchLen (c :: t) with
    | some n => subDatesGo fuel (t.drop (n - 1))
    | none => c :: subDatesGo fuel t

/-- `re.sub` of the date pattern with the empty string. -/
def subDates (s : Str) : Str := subDatesGo s.length s

/-- Characters of the e-mail pattern's local part `[\w.+-]`. -/
def emailLocalChar (c : Char) : Bool := pyWordChar c || c = '.' || c = '+' || c = '-'

/-- Characters of the e-mail pattern's domain part `[\w.-]`. -/
def emailDomChar (c : Char) : Bool := pyWordChar c || c = '.' || c = '-'

/-- In the maximal `[\w.-]` run `d`, the largest split point `k ≥ 1` with a
dot at `k` followed by a word character — what the backtracking of
`[\w.-]+\.\w+` settles on. -/
def lastDotSplit (d : Str) : Option ℕ :=
  ((List.range d.length).filter (fun k =>
    decide (1 ≤ k) && (d.getD k '?' = '.') && pyWordChar (d.getD (k + 1) ' '))).getLast?

/-- Match of `[\w.+-]+@[\w.-]+\.\w+` at the head of `s`: (matched text,
length). -/
def emailAt (s : Str) : Option (Str × ℕ) :=
  let lp := s.takeWhile emailLocalChar
  if lp.isEmpty then none
  else
    match s.drop lp.length with
    | '@' :: rest =>
      let d := rest.takeWhile emailDomChar
      match lastDotSplit d with
      | some k =>
        let wlen := ((d.drop (k + 1)).takeWhile pyWordChar).length
        let tot := lp.length + 1 + k + 1 + wlen
        some (s.take tot, tot)
      | none => none
    | _ => none

/-- Worker for `findEmails`, with a structural counter as in
`subRateSuffixesGo`. -/
def findEmailsGo : ℕ → Str → List Str
  | _, [] => []
  | 0, _ :: _ => []
  | fuel + 1, c :: t =>
    match emailAt (c :: t) with
    | some mn => mn.1 :: findEmailsGo fuel (t.drop (mn.2 - 1))
    | none => findEmailsGo fuel t

/-- `re.findall` of the e-mail pattern. -/
def findEmails (s : Str) : List Str := findEmailsGo s.length s

/-- Characters of the phone group `[\d\s/\-+,()]`. -/
def phoneCls (c : Char) : Bool :=
  c.isDigit || pyWsChar c || c = '/' || c = '-' || c = '+' || c = ',' || c = '(' || c = ')'

/-- The keyword alternation `(?:Ph|Tel|PH|Fax)` (case-insensitive). -/
def phoneKeyLen (s : Str) : Option ℕ :=
  if startsWithSeq (pyLower s) "ph".data then some 2
  else if startsWithSeq (pyLower s) "tel".data then some 3
  else if startsWithSeq (pyLower s) "fax".data then some 3
  else none

/-- Match of `(?:Ph|Tel|PH|Fax)\s*[.:]*\s*[-\s]*([\d\s/\-+,()]+)` at the
head of `s`: (captured group, total length).  When the greedy glue leaves
nothing for the group, Python's backtracking would surrender one glue
character as a one-character group; such a group is always dropped by the
`len(p.strip()) > 3` guard at the call site, so the head match is simply
rejected here. -/
def phoneAt (s : Str) : Option (Str × ℕ) :=
  match phoneKeyLen s with
  | none => none
  | some kl =>
    let r1 := s.drop kl
    let a := (r1.takeWhile pyWsChar).length
    let r2 := r1.drop a
    let b := (r2.takeWhile (fun c => c = '.' || c = ':')).length
    let r3 := r2.drop b
    let cc := (r3.takeWhile pyWsChar).length
    let r4 := r3.drop cc
    let dd := (r4.takeWhile (fun c => c = '-' || pyWsChar c)).length
    let g := (r4.drop dd).takeWhile phoneCls
    if g.isEmpty then none
    else some (g, kl + a + b + cc + dd + g.length)

/-- Worker for `findPhones`, with a structural counter as in
`subRateSuffixesGo`. -/
def findPhonesGo : ℕ → Str → List Str
  | _, [] => []
  | 0, _ :: _ => []
  | fuel + 1, c :: t =>
    match phoneAt (c :: t) with
    | some gn => gn.1 :: findPhonesGo fuel (t.drop (gn.2 - 1))
    | none => findPhonesGo fuel t

/-- `re.findall` of the phone pattern (the captured groups). -/
def findPhones (s : Str) : List Str := findPhonesGo s.length s

/-- The window-scan boilerplate alternation, `re.search` with
`re.IGNORECASE`; `^`/`$`-anchored alternatives keep their anchors. -/
def isBoilerplate (s : Str) : Bool :=
  containsSeq (pyLower s) (pyLower "Coal India".data) ||
  containsSeq (pyLower s) (pyLower "MAHARATNA".data) ||
  containsSeq (pyLower s) (pyLower "Medical Division".data) ||
  containsSeq (pyLower s) (pyLower "Coal Bhawan".data) ||
  containsSeq (pyLower s) (pyLower "EMPANELLED HOSPITALS".data) ||
  containsSeq (pyLower s) (pyLower "Updated on".data) ||
  containsSeq (pyLower s) (pyLower "In supersession".data) ||
  containsSeq (pyLower s) (pyLower "All empaneled".data) ||
  containsSeq (pyLower s) (pyLower "hospitals own rates".data) ||
  matchesStart (rcatL [ristr "Sl", rchr '.', rws]) s ||
  searchIn (rcatL [ristr "CITY", rwsP, ristr "NAME"]) s ||
  searchEnd (rcatL [ristr "EMPANELMENT", rwsS]) s ||
  rmatch (rcatL [richr 'W', rchr '.', richr 'E', rchr '.', richr 'F', rwsS]) s ||
  rmatch (rcatL [rwsS, ristr "No", rwsS]) s

/-- The hospital-column bleed-through filter of the window scan. -/
def hospFilterTest (t : Str) : Bool :=
  searchIn (rcatL [ristr "Total", rwsP, ristr "facilit"]) t ||
  searchIn (ristr "Accepted") t ||
  searchIn (ristr "Acceptable") t ||
  searchIn (rcatL [ristr "Single", rwsP, ristr "special"]) t ||
  searchIn (ristr "Payment") t ||
  searchIn (rcatL [ristr "OPD", rwsS, rchr '&', rwsS, ristr "Indoor"]) t ||
  searchIn (rcatL [ristr "in", rwsP, ristr "favo"]) t

/-- The payment-notes keyword test `(Payment|in\s+favo)`. -/
def paymentTest (s : Str) : Bool :=
  searchIn (ristr "Payment") s || searchIn (rcatL [ristr "in", rwsP, ristr "favo"]) s

/-- Python slicing `s[a:b]` (clamping at the ends). -/
def pySlice (s : Str) (a b : ℕ) : Str := (s.drop a).take (b - a)

/-- An emitted hospital record. -/
structure HospitalEntry where
  sl_no : ℕ
  city : Str
  hospital_name : Str
  address : Str
  phone : Str
  email : Str
  empanelled_for : Str
  empanelment_date : Str
  payment_notes : Str
  deriving DecidableEq, Repr

/-- The per-window accumulation variables of `parse_layout_file`. -/
structure WAcc where
  city : Str
  hospCands : List (ℕ × Str)
  empParts : List Str
  dateParts : List Str
  phoneParts : List Str
  emailParts : List Str
  payment : Str
  deriving DecidableEq, Repr

/-- Empty window accumulator. -/
def initWAcc : WAcc := ⟨[], [], [], [], [], [], []⟩

/-! The window-scan loop body updates its seven accumulation variables in
sequence, and no variable's update reads any of the other six (the
`if not city` guard reads only `city`); the iteration is therefore embedded
variable by variable, each component carrying the loop's blank/boilerplate
line guard. -/

/-- The `city` update of one window-scan iteration: on an active line,
while no city is set, take a non-empty `find_city` hit on the column 6–22
slice. -/
def stepCity (co : List Str) (c : Str) (raw : Str) : Str :=
  let stripped := pyStrip raw
  if stripped.isEmpty then c
  else if isBoilerplate stripped then c
  else if c.isEmpty then
    let cityText := if decide (raw.length > 6) then pyStrip (pySlice raw 6 22) else []
    let found := find_city co cityText
    if !found.isEmpty then found else c
  else c

/-- The `hospital_col_texts` update: on an active line, append the
column 18–58 slice when non-empty and not empanelment bleed-through. -/
def stepHosp (h : List (ℕ × Str)) (ir : ℕ × Str) : List (ℕ × Str) :=
  let stripped := pyStrip ir.2
  if stripped.isEmpty then h
  else if isBoilerplate stripped then h
  else
    let hospText := if decide (ir.2.length > 18) then pyStrip (pySlice ir.2 18 58) else []
    if !hospText.isEmpty && !hospFilterTest hospText then h ++ [(ir.1, hospText)] else h

/-- The `emp_parts` update: on an active line, append the date-cleaned
column 58+ slice when non-empty. -/
def stepEmp (e : List Str) (raw : Str) : List Str :=
  let stripped := pyStrip raw
  if stripped.isEmpty then e
  else if isBoilerplate stripped then e
  else
    let empText := if decide (raw.length > 58) then pyStrip (raw.drop 58) else []
    if !empText.isEmpty then
      let empClean := pyStrip (subDates empText)
      if !empClean.isEmpty then e ++ [empClean] else e
    else e

/-- The `date_parts` update: on an active line, append all dates found in
the column 58+ slice. -/
def stepDates (d : List Str) (raw : Str) : List Str :=
  let stripped := pyStrip raw
  if stripped.isEmpty then d
  else if isBoilerplate stripped then d
  else
    let empText := if decide (raw.length > 58) then pyStrip (raw.drop 58) else []
    if !empText.isEmpty then d ++ findDates empText else d

/-- The `phone_parts` update: on an active line, append the stripped phone
groups longer than three characters. -/
def stepPhones (p : List Str) (raw : Str) : List Str :=
  let stripped := pyStrip raw
  if stripped.isEmpty then p
  else if isBoilerplate stripped then p
  else p ++ (((findPhones stripped).map pyStrip).filter (fun q => decide (q.length > 3)))

/-- The `email_parts` update: on an active line, append all e-mail
matches of the full stripped line. -/
def stepEmails (e : List Str) (raw : Str) : List Str :=
  let stripped := pyStrip raw
  if stripped.isEmpty then e
  else if isBoilerplate stripped then e
  else e ++ findEmails stripped

/-- The `payment` update: on an active line with a payment keyword, append
the stripped line after a space. -/
def stepPay (p : Str) (raw : Str) : Str :=
  let stripped := pyStrip raw
  if stripped.isEmpty then p
  else if isBoilerplate stripped then p
  else if paymentTest stripped then p ++ ' ' :: stripped else p

/-- One iteration of the window scan over the line at index `i`: the
product of the per-variable updates. -/
def windowStep (co : List Str) (acc : WAcc) (iraw : ℕ × Str) : WAcc :=
  ⟨stepCity co acc.city iraw.2, stepHosp acc.hospCands iraw, stepEmp acc.empParts iraw.2,
   stepDates acc.dateParts iraw.2, stepPhones acc.phoneParts iraw.2,
   stepEmails acc.emailParts iraw.2, stepPay acc.payment iraw.2⟩

/-- Hospital-name/address resolution: the first name-like candidate wins
and every other candidate (different line and different text) becomes an
address fragment; with no name-like candidate the first candidate is the
name and the rest the address. -/
def resolveNameAddr (cands : List (ℕ × Str)) : Str × List Str :=
  match cands.find? (fun lt => is_hospital_name_like lt.2) with
  | some lt =>
    (lt.2, (cands.filter (fun lt2 => decide (lt2.1 ≠ lt.1) && decide (lt2.2 ≠ lt.2))).map
      (fun x => x.2))
  | none =>
    match cands with
    | [] => ([], [])
    | c0 :: rest => (c0.2, rest.map (fun x => x.2))

/-- Build the entry for one anchor from its window lines (paired with their
indices); `none` when no hospital name was resolved. -/
def entryForWindow (co : List Str) (eo : List Str → List Str) (slNo : ℕ)
    (wlines : List (ℕ × Str)) : Option HospitalEntry :=
  let acc := wlines.foldl (windowStep co) initWAcc
  let na := resolveNameAddr acc.hospCands
  let hospital_name := rstripComma (pyStrip na.1)
  let address :=
    rstripComma (pyStrip (joinSep ", ".data
      (((na.2.map pyStrip).filter (fun p => !p.isEmpty)))))
  let empText := normSpaces (pyStrip (joinSep " ".data acc.empParts))
  let empDate :=
    match acc.dateParts with
    | d :: _ => d
    | [] => []
  if !hospital_name.isEmpty then
    some ⟨slNo, acc.city, hospital_name, address,
          (if acc.phoneParts.isEmpty then [] else joinSep "; ".data acc.phoneParts),
          (if acc.emailParts.isEmpty then [] else joinSep "; ".data (eo acc.emailParts)),
          empText, empDate, pyStrip acc.payment⟩
  else none

/-- The data-start offset: one past the first line containing `W.E.F`
(case-sensitively), or `0`. -/
def dataStartOf (lines : List Str) : ℕ :=
  match lines.findIdx? (fun l => containsSeq l "W.E.F".data) with
  | some i => i + 1
  | none => 0

/-- Anchor discovery `^\s{0,5}(\d{1,3})\.\s`: at most five leading
whitespace characters (with more, no quantifier choice leaves a digit
next), one to three digits, a period, one whitespace character. -/
def slMatch (line : Str) : Option ℕ :=
  let wsn := (line.takeWhile pyWsChar).length
  if wsn ≤ 5 then
    let r := line.drop wsn
    let ds := r.takeWhile Char.isDigit
    if decide (1 ≤ ds.length) && decide (ds.length ≤ 3) then
      match r.drop ds.length with
      | '.' :: c :: _ => if pyWsChar c then some (digitsVal ds) else none
      | _ => none
    else none
  else none

/-- All `(line_index, sl_no)` anchors at or after the data start. -/
def slPositions (lines : List Str) : List (ℕ × ℕ) :=
  (List.range' (dataStartOf lines) (lines.length - dataStartOf lines)).filterMap
    (fun i => (slMatch (lines.getD i [])).map (fun n => (i, n)))

/-- The window line indices scanned for anchor `idx`:
`range(max(upper_bound, sl_line - 8), lower_bound)` with the in-loop
`i >= len(lines)` break. -/
def windowIdxs (lines : List Str) (sl : List (ℕ × ℕ)) (idx : ℕ) : List ℕ :=
  let slLine := (sl.getD idx (0, 0)).1
  let upper := if idx = 0 then dataStartOf lines else (sl.getD (idx - 1) (0, 0)).1 + 2
  let lower :=
    if idx + 1 < sl.length then (sl.getD (idx + 1) (0, 0)).1
    else min lines.length (slLine + 20)
  let start := max upper (slLine - 8)
  (List.range' start (lower - start)).takeWhile (fun i => i < lines.length)

/-- `parse_layout_file` on an already-split line list, with explicit set
orders. -/
def parse_layout_file (co : List Str) (eo : List Str → List Str)
    (lines : List Str) : List HospitalEntry :=
  let sl := slPositions lines
  (List.range sl.length).filterMap (fun idx =>
    entryForWindow co eo (sl.getD idx (0, 0)).2
      ((windowIdxs lines sl idx).map (fun i => (i, lines.getD i []))))

/-- `parse_layout_file` on the raw text: normalize form feeds, split into
lines, parse. -/
def parse_hospital_text (co : List Str) (eo : List Str → List Str)
    (raw : Str) : List HospitalEntry :=
  parse_layout_file co eo (splitAtChar '\n' (replaceChar '\x0c' '\n' raw))

/-! ## Concrete inputs used in the statements below -/

/-- A hospital-list fragment whose second window line's city-column slice
contains `new delhi` without being equal to or an extension of any
gazetteer entry at its start. -/
def inputA : List Str :=
  ["W.E.F".data,
   "  1.  APOLLO HOSPITAL".data,
   "      xnew delhi".data]

/-- A hospital-list fragment with one anchor whose window collects two
distinct e-mail addresses. -/
def inputB : List Str :=
  ["W.E.F".data,
   "  1.  Delhi           APOLLO HOSPITAL".data,
   "                      Street 5, a@b.com c@d.org".data]

/-! ## Invariants, claim-side formulas and characterization helpers -/

/-- A `PROC_NAME` state with no collected fragments, as reached right
after the lone serial line `"1"`. -/
def procState0 : RState :=
  { initRState with
    phase := Phase.procName
    sr := some 1
    expectedNext := some 2 }

/-- The reachable-state invariant behind C8: between lines the NABH slot is
empty, in `RATE2` a non-NABH rate is always present, and every emitted
entry has its NABH rate present exactly when its non-NABH rate is. -/
def RateInv (s : RState) : Prop :=
  s.nabh = none ∧ (s.phase = Phase.rate2 → s.nonNabh.isSome = true) ∧
  ∀ e ∈ s.entries, e.nabh_rate.isSome = e.non_nabh_rate.isSome

/-- "Has ink": contains at least one non-whitespace character. -/
def hasInk (s : Str) : Bool := s.any (fun c => !pyWsChar c)

/-- The C9 fragment invariant: every accumulated name fragment has ink. -/
def PartsInv (s : RState) : Prop := ∀ p ∈ s.procParts, hasInk p = true

/-- C6, claim-side window-start formula, written from the claim's words:
`max(previous_anchor_line + 2, this_anchor_line - 8)`, or
`max(data_start, this_anchor_line - 8)` for the first anchor. -/
def claimWindowStart (dataStart : ℕ) (sl : List (ℕ × ℕ)) (idx : ℕ) : ℕ :=
  if idx = 0 then max dataStart ((sl.getD idx (0, 0)).1 - 8)
  else max ((sl.getD (idx - 1) (0, 0)).1 + 2) ((sl.getD idx (0, 0)).1 - 8)

/-- C6, claim-side window-stop formula: the next anchor's line index, or
for the last anchor the anchor line plus the fixed lookahead cap 20,
clamped to the end of the line list. -/
def claimWindowStop (numLines : ℕ) (sl : List (ℕ × ℕ)) (idx : ℕ) : ℕ :=
  if idx + 1 < sl.length then (sl.getD (idx + 1) (0, 0)).1
  else min numLines ((sl.getD idx (0, 0)).1 + 20)

/-- The emitted entries, each paired with the line index of the anchor
that produced it. -/
def entriesWithAnchorLine (co : List Str) (eo : List Str → List Str)
    (lines : List Str) : List (ℕ × HospitalEntry) :=
  (List.range (slPositions lines).length).filterMap (fun idx =>
    (entryForWindow co eo ((slPositions lines).getD idx (0, 0)).2
        ((windowIdxs lines (slPositions lines) idx).map
          (fun i => (i, lines.getD i [])))).map
      (fun e => (((slPositions lines).getD idx (0, 0)).1, e)))

/-- Erase the two fields whose content depends on a set-iteration order. -/
def eraseOrderFields (e : HospitalEntry) : HospitalEntry :=
  { e with city := [], email := [] }

/-- A window line that passes the scan's blank/boilerplate gate. -/
def lineActive (raw : Str) : Bool :=
  !(pyStrip raw).isEmpty && !isBoilerplate (pyStrip raw)

/-- The city-column slice (characters 6–22) as the scan extracts it. -/
def citySliceOf (raw : Str) : Str :=
  if decide (raw.length > 6) then pyStrip (pySlice raw 6 22) else []

/-- Order-free restatement of a `find_city` hit: direct gazetteer
membership, multi-word containment, or some gazetteer city being a prefix
of the text. -/
def cityHitOrderFree (t : Str) : Bool :=
  KNOWN_CITIES.contains (pyStrip (pyLower t)) ||
  multiWordCities.any (fun mc => containsSeq (pyStrip (pyLower t)) mc) ||
  KNOWN_CITIES.any (fun c => startsWithSeq (pyStrip (pyLower t)) c)

/-- C5, claim-side slice test, from the claim's words: the city-column
slice case-insensitively equals, or starts with, an entry of the known-city
gazetteer (single- and multi-word entries). -/
def claimCityHit (raw : Str) : Bool :=
  (KNOWN_CITIES ++ multiWordCities).any (fun g =>
    pyStrip (pyLower (pySlice raw 6 22)) = g ||
    startsWithSeq (pyStrip (pyLower (pySlice raw 6 22))) g)

/-- The window lines (with indices) scanned for anchor `idx`. -/
def windowLinesOf (lines : List Str) (idx : ℕ) : List (ℕ × Str) :=
  (windowIdxs lines (slPositions lines) idx).map (fun i => (i, lines.getD i []))

/-! ## Basic lemmas -/

/-- `is_pure_number` succeeds exactly when `parse_number` returns a value:
both run the same cleaning pipeline. -/
theorem is_pure_number_eq_isSome (text : Str) :
    is_pure_number text = (parse_number text).isSome := by
  simp only [is_pure_number, parse_number]
  split <;> simp

/-! ## Claim theorems -/

/-- C1.  The claim says that in `AWAIT_SECOND_RATE` a bare 1–4 digit line
within ±2 of the expected next serial starts the next record, the current
record being flushed with its NABH rate defaulting to its non-NABH rate.
The code disagrees: its `is_pure_number` branch fires first on every bare
digit line, so the line is consumed as the NABH rate instead.  On
`["1", "Wound dressing", "255", "3"]` (state `RATE2`, expected next serial
2, `|3 - 2| ≤ 2`) the parser emits `nabh_rate = 3`, not the claimed flush
with `nabh_rate = 255` and a new record at serial 3. -/
theorem C1_rate2_bare_serial_consumed_as_nabh_rate :
    parse_cghs_rates_lines
        ["1".data, "Wound dressing".data, "255".data, "3".data] =
      [⟨1, "GENERAL".data, "Wound dressing".data, some 255, some 3, []⟩] ∧
    parse_cghs_rates_lines
        ["1".data, "Wound dressing".data, "255".data, "3".data] ≠
      [⟨1, "GENERAL".data, "Wound dressing".data, some 255, some 255, []⟩] := by
  constructor
  · decide
  · decide

/-- C3.  For the input line sequence `["1", "Consultation OPD", "350",
"350"]` under the default category `GENERAL`, the rate parser emits exactly
one entry with `sr_no = 1`, `category = "GENERAL"`, `procedure_name =
"Consultation OPD"`, `non_nabh_rate = 350` and `nabh_rate = 350`. -/
theorem C3_consultation_opd_trace :
    parse_cghs_rates_lines
        ["1".data, "Consultation OPD".data, "350".data, "350".data] =
      [⟨1, "GENERAL".data, "Consultation OPD".data, some 350, some 350, []⟩] := by
  decide

/-- C2, counterexample.  The claim says every purely-numeric line in
`COLLECTING_NAME` becomes the first rate and moves to `AWAIT_SECOND_RATE`,
never a new serial, even with no procedure text collected.  After the lone
serial line `"1"` (state `PROC_NAME`, no fragments), the purely-numeric
line `"3400 per eye"` is instead treated as an inline new record: the
state stays `PROC_NAME`, the serial becomes 3400, and no rate is
captured. -/
theorem C2_counterexample_suffixed_number_as_new_serial :
    is_pure_number (pyStrip "3400 per eye".data) = true ∧
    (stepLine (stepLine initRState "1".data) "3400 per eye".data).phase ≠ Phase.rate2 ∧
    (stepLine (stepLine initRState "1".data) "3400 per eye".data).sr = some 3400 ∧
    (stepLine (stepLine initRState "1".data) "3400 per eye".data).nonNabh = none := by
  refine ⟨by decide, by decide, by decide, by decide⟩

/-- C2, amended.  In `COLLECTING_NAME`, a non-skip, non-header line that is
purely numeric is interpreted as the first (non-NABH) rate and moves the
machine to `AWAIT_SECOND_RATE` — provided it matches the bare digit/comma
numeric form, or some procedure text has already been collected.  (A
suffixed numeric line with no collected text is instead handled as an
inline new record or as name text.) -/
theorem C2_amended_pure_number_becomes_first_rate (s : RState) (line : Str)
    (hphase : s.phase = Phase.procName)
    (hskip : is_skip_line (pyStrip line) = false)
    (hcat : detect_category (pyStrip line) = none)
    (hpure : is_pure_number (pyStrip line) = true)
    (hok : isDigitComma (removeChar ' ' (pyStrip line)) = true ∨ s.procParts ≠ []) :
    (stepLine s line).phase = Phase.rate2 ∧
    (stepLine s line).nonNabh = parse_number (pyStrip line) ∧
    (stepLine s line).sr = s.sr ∧
    (stepLine s line).entries = s.entries := by
  have hparse : (parse_number (pyStrip line)).isSome = true := by
    rw [← is_pure_number_eq_isSome]; exact hpure
  unfold stepLine
  simp only [hskip, hcat, hphase, Bool.false_eq_true, if_false]
  by_cases hdc : isDigitComma (removeChar ' ' (pyStrip line)) = true
  · simp [hdc, hparse]
  · have hparts : s.procParts ≠ [] := by
      rcases hok with h | h
      · exact absurd h hdc
      · exact h
    simp [hdc, hparse, hpure, hparts]

/-- C2, witness for the amended theorem: in `PROC_NAME` with no collected
fragments, the bare numeric line `"350"` is taken as the first rate. -/
theorem C2_amended_witness :
    procState0.phase = Phase.procName ∧
    is_skip_line (pyStrip "350".data) = false ∧
    detect_category (pyStrip "350".data) = none ∧
    is_pure_number (pyStrip "350".data) = true ∧
    isDigitComma (removeChar ' ' (pyStrip "350".data)) = true ∧
    (stepLine procState0 "350".data).phase = Phase.rate2 ∧
    (stepLine procState0 "350".data).nonNabh = parse_number (pyStrip "350".data) :=
  ⟨rfl, by decide, by decide, by decide, by decide,
   (C2_amended_pure_number_becomes_first_rate procState0 "350".data rfl (by decide) (by decide)
     (by decide) (Or.inl (by decide))).1,
   (C2_amended_pure_number_becomes_first_rate procState0 "350".data rfl (by decide) (by decide)
     (by decide) (Or.inl (by decide))).2.1⟩

/-- `flush_entry` clears the NABH slot. -/
theorem flushEntry_nabh (s : RState) : (flushEntry s).nabh = none := rfl

/-- `flush_entry` clears the non-NABH slot. -/
theorem flushEntry_nonNabh (s : RState) : (flushEntry s).nonNabh = none := rfl

/-- `flush_entry` clears the serial slot. -/
theorem flushEntry_sr (s : RState) : (flushEntry s).sr = none := rfl

/-- `flush_entry` clears the fragment list. -/
theorem flushEntry_procParts (s : RState) : (flushEntry s).procParts = [] := rfl

/-- `flush_entry` does not change the state label. -/
theorem flushEntry_phase (s : RState) : (flushEntry s).phase = s.phase := by
  simp only [flushEntry]
  split <;> rfl

/-- `flush_entry` preserves the emitted-entry rate-presence property: the
one entry it may append has `nabh_rate = nabh <|> nonNabh`, which has a
value exactly when `nonNabh` does provided the NABH slot is empty or the
non-NABH slot is full. -/
theorem flushEntry_entries_pres (s : RState)
    (hn : s.nabh = none ∨ s.nonNabh.isSome = true)
    (he : ∀ e ∈ s.entries, e.nabh_rate.isSome = e.non_nabh_rate.isSome) :
    ∀ e ∈ (flushEntry s).entries, e.nabh_rate.isSome = e.non_nabh_rate.isSome := by
  simp only [flushEntry]
  split
  · intro e hmem
    simp only [List.mem_append, List.mem_singleton] at hmem
    rcases hmem with hmem | hmem
    · exact he e hmem
    · subst hmem
      cases hnb : s.nabh with
      | none => simp
      | some v =>
        rcases hn with hn | hn
        · exact absurd hnb (by simp [hn])
        · simp [hn]
  · exact he

/-- One parser step preserves the C8 invariant. -/
theorem stepLine_inv (s : RState) (line : Str) (h : RateInv s) :
    RateInv (stepLine s line) := by
  obtain ⟨h1, h2, h3⟩ := h
  simp only [stepLine]
  generalize pyStrip line = st
  generalize is_skip_line st = bskip
  generalize detect_category st = ocat
  generalize hpn : parse_number st = pn
  generalize is_pure_number st = bpure
  generalize isDigitComma (removeChar ' ' st) = bdc
  generalize isBareSr st = bbare
  generalize seeCodeTest st = bsee
  generalize inlineMatch st = oim
  split
  · exact ⟨h1, h2, h3⟩
  split
  · -- category header
    refine ⟨?_, by simp, ?_⟩
    · split
      · exact flushEntry_nabh s
      · exact h1
    · split
      · exact flushEntry_entries_pres s (Or.inl h1) h3
      · exact h3
  · -- no header: dispatch on the state label
    split
    · -- SEEKING
      split
      · exact ⟨h1, by simp, h3⟩
      · split
        · exact ⟨h1, by simp, h3⟩
        · exact ⟨h1, h2, h3⟩
    · -- PROC_NAME
      rename_i hphase
      split
      · rename_i hcond
        simp only [Bool.and_eq_true] at hcond
        exact ⟨h1, fun _ => hcond.2, h3⟩
      · split
        · rename_i hcond
          simp only [Bool.and_eq_true] at hcond
          exact ⟨h1, fun _ => hcond.1.2, h3⟩
        · split
          · split
            · exact ⟨flushEntry_nabh s, by simp, flushEntry_entries_pres s (Or.inl h1) h3⟩
            · exact ⟨h1, by simp [hphase], h3⟩
          · exact ⟨h1, by simp [hphase], h3⟩
    · -- RATE2
      rename_i hphase
      split
      · exact ⟨rfl, by simp,
          flushEntry_entries_pres { s with nabh := pn, rateTexts := s.rateTexts ++ [st] }
            (Or.inr (h2 hphase)) h3⟩
      · split
        · exact ⟨rfl, by simp,
            flushEntry_entries_pres { s with rateTexts := s.rateTexts ++ [st] }
              (Or.inl h1) h3⟩
        · split
          · exact ⟨rfl, by simp, flushEntry_entries_pres s (Or.inl h1) h3⟩
          · split
            · split
              · exact ⟨rfl, by simp, flushEntry_entries_pres s (Or.inl h1) h3⟩
              · split
                · exact ⟨rfl, by simp, flushEntry_entries_pres s (Or.inl h1) h3⟩
                · exact ⟨rfl, by simp,
                    flushEntry_entries_pres { s with rateTexts := s.rateTexts ++ [st] }
                      (Or.inl h1) h3⟩
            · split
              · exact ⟨rfl, by simp, flushEntry_entries_pres s (Or.inl h1) h3⟩
              · exact ⟨rfl, by simp,
                  flushEntry_entries_pres { s with rateTexts := s.rateTexts ++ [st] }
                    (Or.inl h1) h3⟩

/-- The fold of steps preserves the C8 invariant. -/
theorem foldl_stepLine_inv (lines : List Str) (s : RState) (h : RateInv s) :
    RateInv (List.foldl stepLine s lines) := by
  induction lines generalizing s with
  | nil => exact h
  | cons l t ih => exact ih _ (stepLine_inv _ _ h)

/-- The initial parser state satisfies the C8 invariant. -/
theorem initRState_inv : RateInv initRState := by
  refine ⟨rfl, ?_, by simp [initRState]⟩
  intro hph
  simp [initRState] at hph

/-- C8.  Every emitted `RateEntry` has `nabh_rate` present exactly when
`non_nabh_rate` is present: the second rate can only be captured after the
first, and an absent NABH value is replaced by the non-NABH value at flush
time. -/
theorem C8_nabh_absent_iff_non_nabh_absent (lines : List Str) (e : RateEntry)
    (he : e ∈ parse_cghs_rates_lines lines) :
    e.nabh_rate.isSome = e.non_nabh_rate.isSome := by
  have hinv : RateInv (List.foldl stepLine initRState lines) :=
    foldl_stepLine_inv lines initRState initRState_inv
  obtain ⟨h1, h2, h3⟩ := hinv
  unfold parse_cghs_rates_lines at he
  by_cases hph : (List.foldl stepLine initRState lines).phase = Phase.seeking
  · simp only [hph, ne_eq, not_true_eq_false, if_false] at he
    exact h3 e he
  · simp only [if_pos (by simpa using hph)] at he
    exact flushEntry_entries_pres _ (Or.inl h1) h3 e he

/-- C8, witness: the entry emitted for the C3 input trace has both rates
present. -/
theorem C8_witness :
    (⟨1, "GENERAL".data, "Consultation OPD".data, some 350, some 350,
       ([] : Str)⟩ : RateEntry).nabh_rate.isSome =
      (⟨1, "GENERAL".data, "Consultation OPD".data, some 350, some 350,
         ([] : Str)⟩ : RateEntry).non_nabh_rate.isSome :=
  C8_nabh_absent_iff_non_nabh_absent
    ["1".data, "Consultation OPD".data, "350".data, "350".data] _ (by decide)

/-! ## Support for C9: non-blank name fragments -/

/-- Dropping leading whitespace does not change whether ink exists. -/
theorem hasInk_dropWhile (l : Str) :
    hasInk (l.dropWhile pyWsChar) = hasInk l := by
  induction l with
  | nil => rfl
  | cons c t ih =>
    by_cases hc : pyWsChar c = true
    · simp [hasInk, List.dropWhile_cons, hc] at ih ⊢
      exact ih
    · simp [List.dropWhile_cons, hc]

/-- Reversal does not change whether ink exists. -/
theorem hasInk_reverse (l : Str) : hasInk l.reverse = hasInk l := by
  unfold hasInk
  induction l with
  | nil => rfl
  | cons c t ih => simp [List.any_append, ih, Bool.or_comm]

/-- `strip` does not change whether ink exists. -/
theorem hasInk_pyStrip (s : Str) : hasInk (pyStrip s) = hasInk s := by
  simp only [pyStrip, hasInk_reverse, hasInk_dropWhile]

/-- The head surviving `dropWhile` fails the predicate. -/
theorem head_dropWhile_not (p : Char → Bool) (l : Str) (c : Char) (t : Str)
    (h : l.dropWhile p = c :: t) : p c = false := by
  induction l with
  | nil => simp at h
  | cons d r ih =>
    by_cases hd : p d = true
    · rw [List.dropWhile_cons_of_pos hd] at h
      exact ih h
    · rw [List.dropWhile_cons_of_neg (by simpa using hd)] at h
      cases h
      simpa using hd

/-- The last character of a stripped string is never whitespace. -/
theorem pyStrip_getLast_not_ws (s : Str) (c : Char)
    (h : (pyStrip s).getLast? = some c) : pyWsChar c = false := by
  unfold pyStrip at h
  rw [List.getLast?_reverse] at h
  rw [List.head?_eq_some_iff] at h
  obtain ⟨t, ht⟩ := h
  exact head_dropWhile_not pyWsChar _ c t ht

/-- Dropping the length of the `takeWhile` run is `dropWhile`. -/
theorem drop_length_takeWhile (p : Char → Bool) (l : Str) :
    l.drop (l.takeWhile p).length = l.dropWhile p := by
  induction l with
  | nil => rfl
  | cons c t ih =>
    by_cases hc : p c = true
    · simpa [List.takeWhile_cons, List.dropWhile_cons, hc] using ih
    · simp [List.takeWhile_cons, List.dropWhile_cons, hc]

/-- An all-whitespace string matches the skip pattern `^\s*$`. -/
theorem all_ws_rmatch_wsS (s : Str) (h : ∀ c ∈ s, pyWsChar c = true) :
    rmatch rwsS s = true := by
  induction s with
  | nil => rfl
  | cons c t ih =>
    have hc : pyWsChar c = true := h c (by simp)
    show rmatch (RE.deriv rwsS c) t = true
    have hder : RE.deriv rwsS c = rwsS := by
      simp [rwsS, rws, RE.deriv, CC.test, hc, scat]
    rw [hder]
    exact ih (fun d hd => h d (by simp [hd]))

/-- A line that is not skipped has ink: the first boilerplate pattern is
`^\s*$`. -/
theorem skip_false_hasInk (s : Str) (h : is_skip_line s = false) :
    hasInk s = true := by
  by_cases hink : hasInk s = true
  · exact hink
  · exfalso
    have hall : ∀ c ∈ s, pyWsChar c = true := by
      intro c hc
      by_contra hcw
      apply hink
      simp only [hasInk, List.any_eq_true]
      exact ⟨c, hc, by simpa using hcw⟩
    have hsk : is_skip_line s = true := by
      unfold is_skip_line skipPats
      simp only [List.any_cons, Bool.or_eq_true]
      exact Or.inl (all_ws_rmatch_wsS s hall)
    rw [hsk] at h
    cases h

/-- An inline match against a stripped line always yields a trailing text
group with ink: a stripped line cannot end in the whitespace that the
degenerate group of `^(\d{1,4})\s+(.+)` would require. -/
theorem inlineMatch_pyStrip_hasInk (line : Str) (nt : ℕ × Str)
    (h : inlineMatch (pyStrip line) = some nt) : hasInk (pyStrip nt.2) = true := by
  rw [hasInk_pyStrip]
  unfold inlineMatch at h
  by_cases hlen : (decide (1 ≤ (List.takeWhile Char.isDigit (pyStrip line)).length) &&
      decide ((List.takeWhile Char.isDigit (pyStrip line)).length ≤ 4)) = true
  · rw [if_pos hlen] at h
    by_cases hk : 1 ≤ ((List.dropWhile Char.isDigit (pyStrip line)).takeWhile pyWsChar).length
    · rw [if_pos hk] at h
      rw [drop_length_takeWhile] at h
      cases hdw : (List.dropWhile Char.isDigit (pyStrip line)).dropWhile pyWsChar with
      | nil =>
        -- the degenerate branch: the digit run is followed only by
        -- whitespace, so the stripped line would end in whitespace
        exfalso
        rw [hdw] at h
        have hrest : ∀ c ∈ List.dropWhile Char.isDigit (pyStrip line), pyWsChar c = true :=
          List.dropWhile_eq_nil_iff.mp hdw
        have hne : List.dropWhile Char.isDigit (pyStrip line) ≠ [] := by
          intro hnil
          rw [hnil] at hk
          simp at hk
        obtain ⟨c, hc⟩ : ∃ c, (List.dropWhile Char.isDigit (pyStrip line)).getLast? = some c := by
          cases hx : (List.dropWhile Char.isDigit (pyStrip line)).getLast? with
          | none => exact absurd (List.getLast?_eq_none_iff.mp hx) hne
          | some c => exact ⟨c, rfl⟩
        have hcw : pyWsChar c = true := hrest c (List.mem_of_getLast?_eq_some hc)
        have hlast : (pyStrip line).getLast? = some c := by
          conv => lhs; rw [← List.takeWhile_append_dropWhile (p := Char.isDigit)
            (l := pyStrip line)]
          rw [List.getLast?_append, hc]
          rfl
        rw [pyStrip_getLast_not_ws line c hlast] at hcw
        cases hcw
      | cons c t =>
        rw [hdw] at h
        cases h
        have hcs : pyWsChar c = false := head_dropWhile_not pyWsChar _ c t hdw
        simp [hasInk, List.any_cons, hcs]
    · rw [if_neg hk] at h
      cases h
  · rw [if_neg hlen] at h
    cases h

/-- One parser step preserves the fragment invariant. -/
theorem stepLine_partsInv (s : RState) (line : Str) (h : PartsInv s) :
    PartsInv (stepLine s line) := by
  simp only [stepLine]
  generalize hsk : is_skip_line (pyStrip line) = bskip
  generalize detect_category (pyStrip line) = ocat
  generalize parse_number (pyStrip line) = pn
  generalize is_pure_number (pyStrip line) = bpure
  generalize isDigitComma (removeChar ' ' (pyStrip line)) = bdc
  generalize isBareSr (pyStrip line) = bbare
  generalize seeCodeTest (pyStrip line) = bsee
  generalize him : inlineMatch (pyStrip line) = oim
  have hline : bskip = false → hasInk (pyStrip line) = true := by
    intro hb
    exact skip_false_hasInk (pyStrip line) (hsk ▸ hb)
  have hinl : ∀ nt, oim = some nt → hasInk (pyStrip nt.2) = true := by
    intro nt hnt
    exact inlineMatch_pyStrip_hasInk line nt (him ▸ hnt)
  split
  · exact h
  rename_i hskipF
  have hinkLine : hasInk (pyStrip line) = true := hline (by simpa using hskipF)
  split
  · -- category header: fragments become those of flush_entry, i.e. none
    intro p hp
    split at hp
    · rw [flushEntry_procParts] at hp
      cases hp
    · exact h p hp
  · split
    · -- SEEKING
      split
      · intro p hp
        simp at hp
      · split
        · intro p hp
          simp only [List.mem_singleton] at hp
          subst hp
          exact hinl _ rfl
        · exact h
    · -- PROC_NAME
      split
      · exact h
      · split
        · exact h
        · split
          · split
            · intro p hp
              simp only [List.mem_singleton] at hp
              subst hp
              exact hinl _ rfl
            · intro p hp
              simp only [List.mem_append, List.mem_singleton] at hp
              rcases hp with hp | hp
              · exact h p hp
              · subst hp; exact hinkLine
          · intro p hp
            simp only [List.mem_append, List.mem_singleton] at hp
            rcases hp with hp | hp
            · exact h p hp
            · subst hp; exact hinkLine
    · -- RATE2
      split
      · intro p hp
        rw [flushEntry_procParts] at hp
        cases hp
      · split
        · intro p hp
          rw [flushEntry_procParts] at hp
          cases hp
        · split
          · intro p hp
            simp only [List.mem_singleton] at hp
            cases hp
          · split
            · split
              · intro p hp
                simp only [List.mem_singleton] at hp
                subst hp
                exact hinl _ rfl
              · split
                · intro p hp
                  rw [flushEntry_procParts] at hp
                  cases hp
                · intro p hp
                  rw [flushEntry_procParts] at hp
                  cases hp
            · split
              · intro p hp
                rw [flushEntry_procParts] at hp
                cases hp
              · intro p hp
                rw [flushEntry_procParts] at hp
                cases hp

/-- The fold of steps preserves the fragment invariant. -/
theorem foldl_partsInv (lines : List Str) (s : RState) (h : PartsInv s) :
    PartsInv (List.foldl stepLine s lines) := by
  induction lines generalizing s with
  | nil => exact h
  | cons l t ih => exact ih _ (stepLine_partsInv _ _ h)

/-- Whitespace normalization of an inked string is non-empty. -/
theorem normSpacesGo_ne_nil (b : Bool) (s : Str) (h : hasInk s = true) :
    normSpacesGo b s ≠ [] := by
  induction s generalizing b with
  | nil => simp [hasInk] at h
  | cons c t ih =>
    by_cases hc : pyWsChar c = true
    · have ht : hasInk t = true := by
        simpa [hasInk, List.any_cons, hc] using h
      simp only [normSpacesGo, hc, if_true]
      split
      · exact ih true ht
      · simp
    · simp [normSpacesGo, hc]

/-- A space-join of inked fragments is inked. -/
theorem joinSep_hasInk (sep : Str) (parts : List Str) (hne : parts ≠ [])
    (h : ∀ p ∈ parts, hasInk p = true) : hasInk (joinSep sep parts) = true := by
  match parts with
  | [] => exact absurd rfl hne
  | [p] =>
    simpa [joinSep] using h p (by simp)
  | p :: q :: ps =>
    have hp : hasInk p = true := h p (by simp)
    simp only [joinSep, hasInk, List.any_append, Bool.or_eq_true]
    exact Or.inl (Or.inl (by simpa [hasInk] using hp))

/-- C9.  When the input ends while a record is in progress (state not
`SEEKING`), the accumulated record is flushed exactly once at end of
input: the parser's output is the accumulated entries plus the result of
one final `flush_entry`, and that flush appends at most one entry, doing
so exactly when the serial number is set and the joined procedure name is
non-empty. -/
theorem C9_end_of_input_flush (lines : List Str) :
    (parse_cghs_rates_lines lines =
      if (List.foldl stepLine initRState lines).phase = Phase.seeking then
        (List.foldl stepLine initRState lines).entries
      else (flushEntry (List.foldl stepLine initRState lines)).entries) ∧
    ∃ E, (flushEntry (List.foldl stepLine initRState lines)).entries =
        (List.foldl stepLine initRState lines).entries ++ E ∧
      E.length ≤ 1 ∧
      (E ≠ [] ↔
        ((List.foldl stepLine initRState lines).sr.isSome = true ∧
         normSpaces (pyStrip (joinSep " ".data
           (List.foldl stepLine initRState lines).procParts)) ≠ [])) := by
  have hparts : PartsInv (List.foldl stepLine initRState lines) :=
    foldl_partsInv lines initRState (by intro p hp; cases hp)
  constructor
  · unfold parse_cghs_rates_lines
    by_cases hph : (List.foldl stepLine initRState lines).phase = Phase.seeking <;>
      simp [hph]
  · simp only [flushEntry]
    split
    · rename_i hcond
      simp only [Bool.and_eq_true] at hcond
      refine ⟨_, rfl, by simp, ?_⟩
      have hne : (List.foldl stepLine initRState lines).procParts ≠ [] := by
        have := hcond.2
        simpa using this
      constructor
      · intro _
        refine ⟨hcond.1, ?_⟩
        exact normSpacesGo_ne_nil false _
          (by rw [hasInk_pyStrip]; exact joinSep_hasInk _ _ hne hparts)
      · intro _
        simp
    · rename_i hcond
      refine ⟨[], by simp, by simp, ?_⟩
      simp only [ne_eq, not_true_eq_false, false_iff, not_and]
      intro hsr hname
      apply hcond
      rw [Bool.and_eq_true, hsr]
      refine ⟨rfl, ?_⟩
      by_cases hpp : (List.foldl stepLine initRState lines).procParts = []
      · rw [hpp] at hname
        exact absurd rfl hname
      · simpa using hpp

/-! ## Support for the hospital-segmenter claims -/

/-- An in-bounds `getD` is a member. -/
theorem getD_mem_of_lt {α : Type} (l : List α) (i : ℕ) (d : α) (h : i < l.length) :
    l.getD i d ∈ l := by
  rw [List.getD_eq_getElem?_getD, List.getElem?_eq_getElem h]
  exact List.getElem_mem h

/-- Every anchor's line index is an index into the line list. -/
theorem slPositions_fst_lt (lines : List Str) (p : ℕ × ℕ)
    (hp : p ∈ slPositions lines) : p.1 < lines.length := by
  unfold slPositions at hp
  rw [List.mem_filterMap] at hp
  obtain ⟨i, hi, hmap⟩ := hp
  rw [List.mem_range'] at hi
  obtain ⟨j, hj, rfl⟩ := hi
  cases hsm : slMatch (lines.getD (dataStartOf lines + 1 * j) []) with
  | none => rw [hsm] at hmap; cases hmap
  | some n =>
    rw [hsm] at hmap
    cases hmap
    simp only
    omega

/-- C6.  For every anchor index, the scanned window is exactly the
half-open index range from `max(previous_anchor_line + 2, anchor_line - 8)`
(for the first anchor, `max(data_start, anchor_line - 8)`) up to the next
anchor's line index, or for the last anchor the anchor line plus the
20-line lookahead cap clamped to the end of the line list. -/
theorem C6_window_bounds (lines : List Str) (idx : ℕ)
    (_hidx : idx < (slPositions lines).length) :
    windowIdxs lines (slPositions lines) idx =
      List.range' (claimWindowStart (dataStartOf lines) (slPositions lines) idx)
        (claimWindowStop lines.length (slPositions lines) idx -
         claimWindowStart (dataStartOf lines) (slPositions lines) idx) := by
  have hstop : claimWindowStop lines.length (slPositions lines) idx ≤ lines.length := by
    unfold claimWindowStop
    split
    · rename_i hlt
      exact Nat.le_of_lt (slPositions_fst_lt lines _
        (getD_mem_of_lt (slPositions lines) (idx + 1) (0, 0) hlt))
    · exact Nat.min_le_left _ _
  simp only [windowIdxs, claimWindowStart, claimWindowStop] at hstop ⊢
  rw [List.takeWhile_eq_self_iff.mpr ?bound]
  case bound =>
    intro x hx
    rw [List.mem_range'] at hx
    obtain ⟨j, hj, rfl⟩ := hx
    simp only [decide_eq_true_eq]
    by_cases h0 : idx = 0 <;> simp only [h0, if_true, if_false] at hstop hj ⊢ <;> omega
  by_cases h0 : idx = 0 <;> simp [h0]

/-- C6, witness: for `inputB` (a single anchor at line 1 with the data
start at line 1), the window is the index range `[1, 3)`. -/
theorem C6_witness :
    0 < (slPositions inputB).length ∧
    windowIdxs inputB (slPositions inputB) 0 =
      List.range' (claimWindowStart (dataStartOf inputB) (slPositions inputB) 0)
        (claimWindowStop inputB.length (slPositions inputB) 0 -
         claimWindowStart (dataStartOf inputB) (slPositions inputB) 0) :=
  ⟨by decide, C6_window_bounds inputB 0 (by decide)⟩

/-- C7.  The segmenter emits an entry only when a non-empty hospital name
was resolved from the anchor's window; an anchor whose window yields no
hospital-column candidate produces no entry at all. -/
theorem C7_entries_have_names (lines co : List Str) (eo : List Str → List Str) :
    (∀ e ∈ parse_layout_file co eo lines, e.hospital_name ≠ []) ∧
    (∀ slNo : ℕ, ∀ w : List (ℕ × Str),
      (w.foldl (windowStep co) initWAcc).hospCands = [] →
      entryForWindow co eo slNo w = none) := by
  constructor
  · intro e he
    unfold parse_layout_file at he
    rw [List.mem_filterMap] at he
    obtain ⟨idx, _, hidx⟩ := he
    simp only [entryForWindow] at hidx
    split at hidx
    · rename_i hcond
      cases hidx
      simpa using hcond
    · cases hidx
  · intro slNo w hw
    simp only [entryForWindow, hw]
    rfl

/-- C7, witness: the single entry the segmenter emits on `inputB` has a
non-empty hospital name. -/
theorem C7_witness :
    (⟨1, "Delhi".data, "APOLLO HOSPITAL".data, "Street 5, a@b.com c@d.org".data, [],
      "a@b.com; c@d.org".data, [], [], []⟩ : HospitalEntry).hospital_name ≠ [] :=
  (C7_entries_have_names inputB KNOWN_CITIES (fun l => l.dedup)).1 _ (by decide)

/-- The anchors are discovered in strictly increasing line order. -/
theorem slPositions_pairwise (lines : List Str) :
    List.Pairwise (fun p q : ℕ × ℕ => p.1 < q.1) (slPositions lines) := by
  unfold slPositions
  rw [List.pairwise_filterMap]
  have hr : List.Pairwise (· < ·)
      (List.range' (dataStartOf lines) (lines.length - dataStartOf lines)) := by
    rw [List.range'_eq_map_range, List.pairwise_map]
    exact (List.sorted_lt_range _).imp (by omega)
  refine hr.imp ?_
  intro i j hij x hx y hy
  rw [Option.mem_def, Option.map_eq_some'] at hx hy
  obtain ⟨n1, -, rfl⟩ := hx
  obtain ⟨n2, -, rfl⟩ := hy
  exact hij

/-- C10.  The segmenter's output preserves anchor order: the emitted
sequence is the anchor-indexed sequence with each anchor contributing at
most one entry (a `filterMap` over the anchor indices), and the producing
anchors' line indices are strictly increasing along the output. -/
theorem C10_entries_in_anchor_order (lines co : List Str) (eo : List Str → List Str) :
    parse_layout_file co eo lines = (entriesWithAnchorLine co eo lines).map Prod.snd ∧
    List.Pairwise (· < ·) ((entriesWithAnchorLine co eo lines).map Prod.fst) := by
  constructor
  · unfold parse_layout_file entriesWithAnchorLine
    rw [List.map_filterMap]
    apply List.filterMap_congr
    intro idx _
    cases entryForWindow co eo ((slPositions lines).getD idx (0, 0)).2
      ((windowIdxs lines (slPositions lines) idx).map (fun i => (i, lines.getD i []))) <;>
      rfl
  · unfold entriesWithAnchorLine
    rw [List.map_filterMap, List.pairwise_filterMap]
    rw [List.pairwise_iff_getElem]
    intro a b ha hb hab
    simp only [List.length_range] at ha hb
    simp only [List.getElem_range]
    intro x hx y hy
    rw [Option.mem_def, Option.map_map, Option.map_eq_some'] at hx hy
    obtain ⟨e1, -, rfl⟩ := hx
    obtain ⟨e2, -, rfl⟩ := hy
    have hpw := (List.pairwise_iff_getElem.mp (slPositions_pairwise lines))
      a b ha hb hab
    simp only [Function.comp]
    rw [List.getD_eq_getElem?_getD, List.getElem?_eq_getElem ha,
        List.getD_eq_getElem?_getD, List.getElem?_eq_getElem hb]
    exact hpw

/-- C10, witness: on `inputB` the output equals the anchor-annotated
sequence and its single anchor line list `[1]` is strictly sorted. -/
theorem C10_witness :
    parse_layout_file KNOWN_CITIES (fun l => l.dedup) inputB =
      (entriesWithAnchorLine KNOWN_CITIES (fun l => l.dedup) inputB).map Prod.snd ∧
    List.Pairwise (· < ·)
      ((entriesWithAnchorLine KNOWN_CITIES (fun l => l.dedup) inputB).map Prod.fst) :=
  C10_entries_in_anchor_order inputB KNOWN_CITIES (fun l => l.dedup)

/-! ## Fold projections of the window scan -/

/-- Fold projection: the city accumulator. -/
theorem foldl_windowStep_city (co : List Str) (w : List (ℕ × Str)) (a : WAcc) :
    (w.foldl (windowStep co) a).city =
      w.foldl (fun c ir => stepCity co c ir.2) a.city := by
  induction w generalizing a with
  | nil => rfl
  | cons ir t ih =>
    rw [List.foldl_cons, List.foldl_cons]
    exact ih _

/-- Fold projection: the hospital-candidate accumulator. -/
theorem foldl_windowStep_hospCands (co : List Str) (w : List (ℕ × Str)) (a : WAcc) :
    (w.foldl (windowStep co) a).hospCands = w.foldl stepHosp a.hospCands := by
  induction w generalizing a with
  | nil => rfl
  | cons ir t ih =>
    rw [List.foldl_cons, List.foldl_cons]
    exact ih _

/-- Fold projection: the empanelment-text accumulator. -/
theorem foldl_windowStep_empParts (co : List Str) (w : List (ℕ × Str)) (a : WAcc) :
    (w.foldl (windowStep co) a).empParts =
      w.foldl (fun e ir => stepEmp e ir.2) a.empParts := by
  induction w generalizing a with
  | nil => rfl
  | cons ir t ih =>
    rw [List.foldl_cons, List.foldl_cons]
    exact ih _

/-- Fold projection: the date accumulator. -/
theorem foldl_windowStep_dateParts (co : List Str) (w : List (ℕ × Str)) (a : WAcc) :
    (w.foldl (windowStep co) a).dateParts =
      w.foldl (fun d ir => stepDates d ir.2) a.dateParts := by
  induction w generalizing a with
  | nil => rfl
  | cons ir t ih =>
    rw [List.foldl_cons, List.foldl_cons]
    exact ih _

/-- Fold projection: the phone accumulator. -/
theorem foldl_windowStep_phoneParts (co : List Str) (w : List (ℕ × Str)) (a : WAcc) :
    (w.foldl (windowStep co) a).phoneParts =
      w.foldl (fun p ir => stepPhones p ir.2) a.phoneParts := by
  induction w generalizing a with
  | nil => rfl
  | cons ir t ih =>
    rw [List.foldl_cons, List.foldl_cons]
    exact ih _

/-- Fold projection: the e-mail accumulator. -/
theorem foldl_windowStep_emailParts (co : List Str) (w : List (ℕ × Str)) (a : WAcc) :
    (w.foldl (windowStep co) a).emailParts =
      w.foldl (fun e ir => stepEmails e ir.2) a.emailParts := by
  induction w generalizing a with
  | nil => rfl
  | cons ir t ih =>
    rw [List.foldl_cons, List.foldl_cons]
    exact ih _

/-- Fold projection: the payment accumulator. -/
theorem foldl_windowStep_payment (co : List Str) (w : List (ℕ × Str)) (a : WAcc) :
    (w.foldl (windowStep co) a).payment =
      w.foldl (fun p ir => stepPay p ir.2) a.payment := by
  induction w generalizing a with
  | nil => rfl
  | cons ir t ih =>
    rw [List.foldl_cons, List.foldl_cons]
    exact ih _

/-- Two runs of `entryForWindow` with different set orders agree after
erasing the city and e-mail fields: every other field is computed from
accumulators that never read an order. -/
theorem entryForWindow_erase_congr (co1 co2 : List Str) (eo1 eo2 : List Str → List Str)
    (slNo : ℕ) (w : List (ℕ × Str)) :
    (entryForWindow co1 eo1 slNo w).map eraseOrderFields =
      (entryForWindow co2 eo2 slNo w).map eraseOrderFields := by
  have hh := (foldl_windowStep_hospCands co1 w initWAcc).trans
    (foldl_windowStep_hospCands co2 w initWAcc).symm
  have hempP := (foldl_windowStep_empParts co1 w initWAcc).trans
    (foldl_windowStep_empParts co2 w initWAcc).symm
  have hdates := (foldl_windowStep_dateParts co1 w initWAcc).trans
    (foldl_windowStep_dateParts co2 w initWAcc).symm
  have hphones := (foldl_windowStep_phoneParts co1 w initWAcc).trans
    (foldl_windowStep_phoneParts co2 w initWAcc).symm
  have hemails := (foldl_windowStep_emailParts co1 w initWAcc).trans
    (foldl_windowStep_emailParts co2 w initWAcc).symm
  have hpay := (foldl_windowStep_payment co1 w initWAcc).trans
    (foldl_windowStep_payment co2 w initWAcc).symm
  simp only [entryForWindow]
  rw [hh, hempP, hdates, hphones, hemails, hpay]
  split
  · simp only [Option.map_some', eraseOrderFields]
  · rfl

/-- C4, counterexample.  The claim says two runs on identical input
produce identical sequences including the e-mail field.  With the two
valid iteration orders of the collected e-mail set on `inputB` (two
distinct addresses in one window), the outputs differ in the e-mail
field. -/
theorem C4_counterexample_email_order :
    ValidCityOrder KNOWN_CITIES ∧
    ValidEmailOrder (fun l => l.dedup) ∧
    ValidEmailOrder (fun l => (l.dedup).reverse) ∧
    parse_layout_file KNOWN_CITIES (fun l => l.dedup) inputB ≠
      parse_layout_file KNOWN_CITIES (fun l => (l.dedup).reverse) inputB :=
  ⟨List.Perm.refl _, fun _ => List.Perm.refl _, fun l => List.reverse_perm l.dedup,
   by decide⟩

/-- C4, amended.  Given fixed set-iteration orders both parsers are pure
functions of their input; runs of the hospital parser with different
iteration orders for the e-mail set and the city gazetteer produce entry
sequences identical in every field except possibly `email` and `city`; the
rate parser involves no set iteration at all. -/
theorem C4_amended_determinism_up_to_set_order (lines : List Str)
    (co1 co2 : List Str) (eo1 eo2 : List Str → List Str) :
    (parse_layout_file co1 eo1 lines).map eraseOrderFields =
      (parse_layout_file co2 eo2 lines).map eraseOrderFields ∧
    ∀ raw : Str, parse_cghs_rates raw = parse_cghs_rates raw := by
  constructor
  · unfold parse_layout_file
    rw [List.map_filterMap, List.map_filterMap]
    apply List.filterMap_congr
    intro idx _
    exact entryForWindow_erase_congr co1 co2 eo1 eo2 _ _
  · intro raw
    rfl

/-! ## Support for C5 -/

/-- Titling a non-empty string yields a non-empty string. -/
theorem pyTitle_ne_nil (s : Str) (h : s ≠ []) : pyTitle s ≠ [] := by
  cases s with
  | nil => exact absurd rfl h
  | cons c t => simp [pyTitle, pyTitleGo]

/-- Every single-word gazetteer entry is non-empty. -/
theorem known_cities_ne_nil : ∀ c ∈ KNOWN_CITIES, c ≠ [] := by decide

/-- Every multi-word gazetteer entry is non-empty. -/
theorem multi_word_cities_ne_nil : ∀ c ∈ multiWordCities, c ≠ [] := by decide

/-- For a valid gazetteer order, `find_city` returns a non-empty city
exactly on an order-free hit. -/
theorem find_city_ne_nil_iff (co : List Str) (hco : ValidCityOrder co) (t : Str) :
    (find_city co t ≠ []) ↔ cityHitOrderFree t = true := by
  unfold find_city cityHitOrderFree
  by_cases h1 : KNOWN_CITIES.contains (pyStrip (pyLower t)) = true
  · have htl : pyStrip (pyLower t) ∈ KNOWN_CITIES := by
      simpa [List.contains, List.elem_iff] using h1
    apply iff_of_true
    · simp only [h1, if_true]
      exact pyTitle_ne_nil _ (known_cities_ne_nil _ htl)
    · rw [h1]
      rfl
  · rw [if_neg (by simpa using h1)]
    cases h2 : multiWordCities.find?
        (fun mc => containsSeq (pyStrip (pyLower t)) mc) with
    | some mc =>
      apply iff_of_true
      · exact pyTitle_ne_nil _
          (multi_word_cities_ne_nil mc (List.mem_of_find?_eq_some h2))
      · have hpred := List.find?_some h2
        have : multiWordCities.any (fun mc => containsSeq (pyStrip (pyLower t)) mc) = true :=
          List.any_eq_true.mpr ⟨mc, List.mem_of_find?_eq_some h2, hpred⟩
        simp [this]
    | none =>
      cases h3 : co.find? (fun city => startsWithSeq (pyStrip (pyLower t)) city) with
      | some c =>
        have hcmem : c ∈ KNOWN_CITIES := hco.mem_iff.mp (List.mem_of_find?_eq_some h3)
        apply iff_of_true
        · exact pyTitle_ne_nil _ (known_cities_ne_nil c hcmem)
        · have : KNOWN_CITIES.any
              (fun c => startsWithSeq (pyStrip (pyLower t)) c) = true :=
            List.any_eq_true.mpr ⟨c, hcmem, List.find?_some h3⟩
          simp [this]
      | none =>
        apply iff_of_false
        · simp
        · simp only [Bool.or_eq_true, not_or]
          refine ⟨⟨by simpa using h1, ?_⟩, ?_⟩
          · intro hB
            obtain ⟨mc, hmem, hpred⟩ := List.any_eq_true.mp hB
            exact (List.find?_eq_none.mp h2 mc hmem) hpred
          · intro hC
            obtain ⟨c, hmem, hpred⟩ := List.any_eq_true.mp hC
            exact (List.find?_eq_none.mp h3 c (hco.mem_iff.mpr hmem)) hpred

/-- On the empty accumulator, a city step takes exactly a `find_city` hit
on an active line. -/
theorem stepCity_nil (co : List Str) (raw : Str) :
    stepCity co [] raw =
      if lineActive raw && !(find_city co (citySliceOf raw)).isEmpty then
        find_city co (citySliceOf raw)
      else [] := by
  unfold stepCity lineActive citySliceOf
  by_cases h1 : (pyStrip raw).isEmpty = true
  · simp [h1]
  · by_cases h2 : isBoilerplate (pyStrip raw) = true
    · simp [h1, h2]
    · simp [h1, h2]

/-- A non-empty city accumulator is never overwritten. -/
theorem stepCity_ne (co : List Str) (c : Str) (raw : Str) (hc : c ≠ []) :
    stepCity co c raw = c := by
  have hce : c.isEmpty = false := by
    cases c with
    | nil => exact absurd rfl hc
    | cons a t => rfl
  simp only [stepCity, hce, Bool.false_eq_true, if_false]
  split
  · rfl
  split
  · rfl
  rfl

/-- A non-empty city accumulator survives the whole window fold. -/
theorem foldl_stepCity_stay (co : List Str) (w : List (ℕ × Str)) (c : Str) (hc : c ≠ []) :
    w.foldl (fun x ir => stepCity co x ir.2) c = c := by
  induction w with
  | nil => rfl
  | cons ir t ih =>
    rw [List.foldl_cons, stepCity_ne co c ir.2 hc]
    exact ih

/-- The window fold's city is the `find_city` value of the first active
line whose city-column slice yields a hit. -/
theorem foldl_stepCity_find (co : List Str) (w : List (ℕ × Str)) :
    w.foldl (fun x ir => stepCity co x ir.2) [] =
      (match w.find? (fun ir =>
          lineActive ir.2 && !(find_city co (citySliceOf ir.2)).isEmpty) with
       | some ir => find_city co (citySliceOf ir.2)
       | none => []) := by
  induction w with
  | nil => rfl
  | cons ir t ih =>
    rw [List.foldl_cons, stepCity_nil]
    by_cases hp : (lineActive ir.2 && !(find_city co (citySliceOf ir.2)).isEmpty) = true
    · rw [if_pos hp]
      have hne : find_city co (citySliceOf ir.2) ≠ [] := by
        intro hnil
        rw [Bool.and_eq_true] at hp
        rw [hnil] at hp
        simp at hp
      rw [foldl_stepCity_stay co t _ hne, List.find?_cons_of_pos t hp]
    · rw [if_neg hp, ih, List.find?_cons_of_neg t hp]

/-- C5, counterexample.  The claim says an emitted entry's city is
non-empty only if some window line's city-column slice equals or
prefix-matches a gazetteer entry.  On `inputA` the slice `"xnew delhi"`
merely *contains* the multi-word entry `"new delhi"`: the entry is emitted
with city `"New Delhi"` although no window line satisfies the claim's
slice test. -/
theorem C5_counterexample_containment_hit :
    (parse_layout_file KNOWN_CITIES (fun l => l.dedup) inputA).map (fun e => e.city) =
      ["New Delhi".data] ∧
    (windowLinesOf inputA 0).all (fun ir => !claimCityHit ir.2) = true := by
  refine ⟨by decide, by decide⟩

/-- C5, amended.  For every valid gazetteer order and every emitted entry,
the city is non-empty exactly when some active (non-blank, non-boilerplate)
window line's city-column slice yields a gazetteer hit — exact membership,
multi-word containment, or a gazetteer city being a prefix of the slice —
and the city value is the `find_city` result of the first such line. -/
theorem C5_amended_city_iff_window_hit (lines co : List Str) (eo : List Str → List Str)
    (hco : ValidCityOrder co) (e : HospitalEntry)
    (he : e ∈ parse_layout_file co eo lines) :
    ∃ idx,
      entryForWindow co eo ((slPositions lines).getD idx (0, 0)).2
        (windowLinesOf lines idx) = some e ∧
      (e.city ≠ [] ↔ ∃ ir ∈ windowLinesOf lines idx,
        lineActive ir.2 = true ∧ cityHitOrderFree (citySliceOf ir.2) = true) ∧
      e.city = (match (windowLinesOf lines idx).find? (fun ir =>
          lineActive ir.2 && !(find_city co (citySliceOf ir.2)).isEmpty) with
        | some ir => find_city co (citySliceOf ir.2)
        | none => []) := by
  unfold parse_layout_file at he
  rw [List.mem_filterMap] at he
  obtain ⟨idx, _, hidx⟩ := he
  refine ⟨idx, hidx, ?_⟩
  have hcity : e.city =
      (windowLinesOf lines idx).foldl (fun c ir => stepCity co c ir.2) [] := by
    simp only [entryForWindow] at hidx
    split at hidx
    · cases hidx
      exact foldl_windowStep_city co (windowLinesOf lines idx) initWAcc
    · cases hidx
  rw [hcity, foldl_stepCity_find]
  constructor
  · -- non-emptiness matches existence of a hit
    cases hfind : (windowLinesOf lines idx).find? (fun ir =>
        lineActive ir.2 && !(find_city co (citySliceOf ir.2)).isEmpty) with
    | some ir =>
      have hpred := List.find?_some hfind
      rw [Bool.and_eq_true] at hpred
      have hne : find_city co (citySliceOf ir.2) ≠ [] := by
        intro hnil
        have := hpred.2
        rw [hnil] at this
        simp at this
      apply iff_of_true
      · simpa [hfind] using hne
      · exact ⟨ir, List.mem_of_find?_eq_some hfind, hpred.1,
          (find_city_ne_nil_iff co hco _).mp hne⟩
    | none =>
      apply iff_of_false
      · simp [hfind]
      · rintro ⟨ir, hmem, hact, hhit⟩
        have hne : find_city co (citySliceOf ir.2) ≠ [] :=
          (find_city_ne_nil_iff co hco _).mpr hhit
        have := List.find?_eq_none.mp hfind ir hmem
        apply this
        rw [Bool.and_eq_true]
        refine ⟨hact, ?_⟩
        cases hfc : find_city co (citySliceOf ir.2) with
        | nil => exact absurd hfc hne
        | cons a t => rfl
  · rfl

/-- C5, witness for the amended theorem, on `inputB` whose first window
line carries the slice `"Delhi"`. -/
theorem C5_amended_witness :
    ∃ idx,
      entryForWindow KNOWN_CITIES (fun l => l.dedup)
        ((slPositions inputB).getD idx (0, 0)).2 (windowLinesOf inputB idx) =
        some ⟨1, "Delhi".data, "APOLLO HOSPITAL".data,
          "Street 5, a@b.com c@d.org".data, [], "a@b.com; c@d.org".data, [], [], []⟩ ∧
      ((⟨1, "Delhi".data, "APOLLO HOSPITAL".data, "Street 5, a@b.com c@d.org".data, [],
          "a@b.com; c@d.org".data, [], [], []⟩ : HospitalEntry).city ≠ [] ↔
        ∃ ir ∈ windowLinesOf inputB idx,
          lineActive ir.2 = true ∧ cityHitOrderFree (citySliceOf ir.2) = true) ∧
      (⟨1, "Delhi".data, "APOLLO HOSPITAL".data, "Street 5, a@b.com c@d.org".data, [],
         "a@b.com; c@d.org".data, [], [], []⟩ : HospitalEntry).city =
        (match (windowLinesOf inputB idx).find? (fun ir =>
            lineActive ir.2 &&
            !(find_city KNOWN_CITIES (citySliceOf ir.2)).isEmpty) with
         | some ir => find_city KNOWN_CITIES (citySliceOf ir.2)
         | none => []) :=
  C5_amended_city_iff_window_hit inputB KNOWN_CITIES (fun l => l.dedup)
    (List.Perm.refl _) _ (by decide)

end MedBill
